import Mathlib

/-!
# reviewdog: GitLab merge-request discussion commenter, command line, Bitbucket client

A shallow embedding of `service/gitlab/gitlab_mr_discussion.go`, of `run` and
its helpers in `cmd/reviewdog/main.go`, and of the error check of
`service/bitbucket/cloud_api_client.go`.

* The remote GitLab server is an explicit oracle (`Client`): what every API
  primitive answers.  Every method returns, next to its result, the list of
  the calls it made to the client, so "which remote calls were issued" is an
  observable of the model.
* `errgroup.Group` is modelled by its one piece of state, the first recorded
  error; the order in which the goroutines finish is an explicit schedule.
* The recursion of `listAllMergeRequestDiscussion` is not bounded by the
  source (the server decides when `NextPage` is 0), so it carries fuel.
* A `context.Context` is observed through `ctx.Err()` at a logical time, the
  number of requests the running Flush has issued, so that a cancellation in
  the middle of a Flush can be expressed.
* Package `commentutil` is not among the embedded sources: its body renderers
  are parameters, and its posted-comment index is modelled from the
  specification.
* Comment objects and their location objects live in a memory addressed by
  pointers (`Store`): `Post` writes the path through the pointers it is given
  and appends the comment pointer.
  The methods that only read comments work on the buffer read through its
  pointers (`Store.read`).
* For `run`, everything outside `main.go` is a `World` of answers; an error it
  returns is told apart by the place that made it, and the steps it takes on
  the outside are listed in order.
-/

namespace Reviewdog

/-! ## Errors and contexts -/

/-- A Go `error` value: either an error produced by the API client, or
`fmt.Errorf(msg + ": %w", cause)`. -/
inductive Error where
  | api (msg : String)
  | wrapf (msg : String) (cause : Error)
  deriving DecidableEq, Repr

/-- The chain `errors.Unwrap` walks: the error itself, then its causes. -/
def Error.chain : Error → List Error
  | .api m => [.api m]
  | .wrapf m c => .wrapf m c :: c.chain

/-- Go's `errors.Is(e, target)` for the errors of this model. -/
def Error.Is (e target : Error) : Bool := decide (target ∈ e.chain)

/-- A `context.Context`, observed through `ctx.Err()`: the argument is the
logical time at which it is consulted, counted as the number of requests the
running operation has issued so far. `none` is a live context. -/
abbrev Context := Nat → Option Error

/-- The error `context.Canceled`. -/
def Canceled : Error := .api "context canceled"

/-- Effect of `gitlab.WithContext(ctx)` on a request: a request bound to a
context that is already done fails with the context's error, otherwise the
server's answer is returned. -/
def withContext {α : Type} (ctxErr : Option Error) (answer : Except Error α) : Except Error α :=
  match ctxErr with
  | some e => .error e
  | none => answer

/-! ## Data model -/

/-- The fields of `*reviewdog.Comment` the commenter reads or writes.
`path` is `Result.Diagnostic.Location.Path`, `startLine` is
`Result.Diagnostic.Location.Range.Start.Line`; `toolName` and `message` stand
for the rest of the diagnostic, which only the body renderer looks at. -/
structure Comment where
  path : String
  startLine : Int
  inDiffFile : Bool
  oldPath : String
  oldLine : Int
  toolName : String
  message : String
  deriving DecidableEq, Repr

/-- The type `gitlab.NotePosition` (the fields used here). -/
structure NotePosition where
  baseSHA : String
  startSHA : String
  headSHA : String
  positionType : String
  newPath : String
  newLine : Int
  oldPath : String
  oldLine : Int
  deriving DecidableEq, Repr

/-- The type `gitlab.Note`; `position` is a pointer and may be nil. -/
structure Note where
  body : String
  position : Option NotePosition
  deriving DecidableEq, Repr

/-- The type `gitlab.Discussion`. -/
structure Discussion where
  notes : List Note
  deriving DecidableEq, Repr

/-- The type `gitlab.ListMergeRequestDiscussionsOptions`; page 0 is "unset". -/
structure ListMergeRequestDiscussionsOptions where
  page : Int
  perPage : Int
  deriving DecidableEq, Repr

/-- The part of `gitlab.Response` the code reads. -/
structure Response where
  nextPage : Int
  deriving DecidableEq, Repr

/-- The type `gitlab.CreateMergeRequestDiscussionOptions`. -/
structure CreateMergeRequestDiscussionOptions where
  body : String
  position : NotePosition
  deriving DecidableEq, Repr

/-- The part of `gitlab.MergeRequest` the code reads. -/
structure MergeRequest where
  targetProjectID : Int
  targetBranch : String
  deriving DecidableEq, Repr

/-- The part of `gitlab.Branch` the code reads: `Commit.ID`. A branch returned
by a successful lookup carries its commit. -/
structure Branch where
  commitID : String
  deriving DecidableEq, Repr

/-- One call made to the GitLab client. -/
inductive Request where
  | listMergeRequestDiscussions (projectID : String) (mergeRequest : Int)
      (opts : ListMergeRequestDiscussionsOptions)
  | getMergeRequest (projectID : String) (mergeRequest : Int)
  | getBranch (pid : Int) (branch : String)
  | createMergeRequestDiscussion (projectID : String) (mergeRequest : Int)
      (opts : CreateMergeRequestDiscussionOptions)
  deriving DecidableEq, Repr

/-- The remote server as seen through `*gitlab.Client`: the answer of each
primitive. The first argument of `createMergeRequestDiscussion` is the position
of the call among the creation calls of one Flush, in dispatch order, so that
two calls with the same payload can be answered differently. -/
structure Client where
  listMergeRequestDiscussions :
    String → Int → ListMergeRequestDiscussionsOptions → Except Error (List Discussion × Response)
  getMergeRequest : String → Int → Except Error MergeRequest
  getBranch : Int → String → Except Error Branch
  createMergeRequestDiscussion :
    Nat → String → Int → CreateMergeRequestDiscussionOptions → Option Error

/-- The creation calls of a request log, in log order. -/
def createdCalls (log : List Request) : List CreateMergeRequestDiscussionOptions :=
  log.filterMap fun r =>
    match r with
    | .createMergeRequestDiscussion _ _ o => some o
    | _ => none

/-! ## Package `commentutil` (not part of the embedded sources) -/

/-- The two body renderers of package `commentutil`, `MarkdownComment` and
`MarkdownSuggestions`, taken as parameters: deterministic functions of the
comment. -/
structure Commentutil where
  MarkdownComment : Comment → String
  MarkdownSuggestions : Comment → String

/-- Modelled from the spec: `commentutil.PostedComments`, the posted-comment
index, "mapping (path, line) → set of existing body strings"; represented by
the list of inserted (path, line, body) triples. -/
abbrev PostedComments := List (String × Int × String)

/-- Modelled from the spec: `PostedComments.AddPostedComment`, "extract (path,
line, body) and insert into the mapping". -/
def PostedComments.AddPostedComment (p : PostedComments) (path : String) (lineNum : Int)
    (body : String) : PostedComments :=
  p ++ [(path, lineNum, body)]

/-- Modelled from the spec: `PostedComments.IsPosted`, "IsPosted(path, line,
body) → bool: exact match only"; the path is the comment's path. A pure query:
the index is not changed. -/
def PostedComments.IsPosted (p : PostedComments) (c : Comment) (lineNum : Int)
    (body : String) : Bool :=
  decide ((c.path, lineNum, body) ∈ p)

/-! ## Standard library: `path/filepath` on slash-separated paths -/

/-- Splits a path at every slash. -/
def splitSlash : List Char → List (List Char)
  | [] => [[]]
  | c :: cs =>
    if c = '/' then [] :: splitSlash cs
    else
      match splitSlash cs with
      | [] => [[c]]
      | w :: ws => (c :: w) :: ws

/-- One step of `filepath.Clean` over the components kept so far (last one
first): empty and `.` components are dropped, `..` removes the previous
component, or is kept in a relative path when there is nothing to remove. -/
def cleanStep (rooted : Bool) (kept : List (List Char)) (comp : List Char) : List (List Char) :=
  if comp = [] ∨ comp = ['.'] then kept
  else if comp = ['.', '.'] then
    match kept with
    | [] => if rooted then [] else [comp]
    | k :: ks => if k = ['.', '.'] then comp :: k :: ks else ks
  else comp :: kept

/-- The function `filepath.Clean` for slash-separated paths. -/
def filepathClean (path : String) : String :=
  if path = "" then "."
  else
    let rooted := path.data.head? = some '/'
    let kept := ((splitSlash path.data).foldl (cleanStep rooted) []).reverse
    let out := (if rooted then ['/'] else []) ++ List.intercalate ['/'] kept
    if out = [] then "." else String.mk out

/-- The function `filepath.Join`: empty elements are ignored, the rest is
joined with slashes and cleaned; the result is empty when every element is. -/
def filepathJoin (elems : List String) : String :=
  match elems.filter (fun e => e ≠ "") with
  | [] => ""
  | es => filepathClean (String.mk (List.intercalate ['/'] (es.map String.data)))

/-- The function `filepath.ToSlash` where the separator is the slash. -/
def filepathToSlash (path : String) : String := path

/-! ## `errgroup.Group` -/

/-- The state of an `errgroup.Group` made without a context: the error stored
by `errOnce`, if any. -/
structure Group where
  err : Option Error
  deriving DecidableEq, Repr

/-- End of a goroutine started by `Group.Go`: a non-nil error is stored if it is
the first one. -/
def Group.finish (eg : Group) (r : Option Error) : Group :=
  match eg.err, r with
  | none, some e => { err := some e }
  | _, _ => eg

/-- The method `Group.Wait`, once every goroutine has finished in the order
`sched` (indices into `results`, the goroutines in the order they were
started): the first stored error. -/
def Group.Wait (results : List (Option Error)) (sched : List Nat) : Option Error :=
  (sched.foldl (fun eg i => eg.finish (results.getD i none)) { err := none : Group }).err

/-! ## The commenter -/

/-- The type `MergeRequestDiscussionCommenter` as the methods that only read
comments see it, without its client (the `Client` oracle is passed to the
methods that use it) and its mutex (the methods are atomic in this sequential
model): `postComments` holds, for each pointer of the buffer, the comment read
from its object (`Store.read`). -/
structure MergeRequestDiscussionCommenter where
  pr : Int
  sha : String
  projects : String
  postComments : List Comment
  wd : String
  deriving DecidableEq, Repr

/-- What a method call produced: the returned error (`none` is nil) and the
requests the call issued, in order (creation calls in dispatch order). -/
structure Outcome where
  err : Option Error
  log : List Request
  deriving DecidableEq, Repr

/-- The address of a comment object: a value of type `*reviewdog.Comment`. -/
abbrev CommentPtr := Nat

/-- The address of a location object: a value of the type of
`Result.Diagnostic.Location`. -/
abbrev LocationPtr := Nat

/-- The fields of a location object the commenter uses; `startLine` is
`Range.Start.Line`. -/
structure Location where
  path : String
  startLine : Int
  deriving DecidableEq, Repr

/-- A comment object in memory, with its result. `location` is the pointer
`Result.Diagnostic.Location`, `none` when `Result.Diagnostic` or that pointer
is nil; two comment objects may share one location object. -/
structure CommentObject where
  location : Option LocationPtr
  inDiffFile : Bool
  oldPath : String
  oldLine : Int
  toolName : String
  message : String
  deriving DecidableEq, Repr

/-- What the code reads from a comment object through the nil-safe getters
`GetLocation().GetPath()` and `GetLocation().GetRange().GetStart().GetLine()`:
the fields of its location object, or the empty path and line 0 when there is
no location. -/
def CommentObject.read (locations : LocationPtr → Location) (o : CommentObject) : Comment :=
  { path := match o.location with
      | some l => (locations l).path
      | none => ""
    startLine := match o.location with
      | some l => (locations l).startLine
      | none => 0
    inDiffFile := o.inDiffFile
    oldPath := o.oldPath
    oldLine := o.oldLine
    toolName := o.toolName
    message := o.message }

/-- The commenter in memory: the fields of the Go struct, with `postComments`
the slice of pointers it is, and the comment and location objects in memory,
those the buffer points to and those of the callers. -/
structure Store where
  pr : Int
  sha : String
  projects : String
  postComments : List CommentPtr
  wd : String
  memory : CommentPtr → CommentObject
  locations : LocationPtr → Location

/-- The comment read through the pointer `c`. -/
def Store.comment (s : Store) (c : CommentPtr) : Comment :=
  (s.memory c).read s.locations

/-- The commenter as a method that only reads comments sees it: every pointer
of the buffer replaced by the comment read through it. -/
def Store.read (s : Store) : MergeRequestDiscussionCommenter :=
  { pr := s.pr
    sha := s.sha
    projects := s.projects
    postComments := s.postComments.map s.comment
    wd := s.wd }

/-- The function `listAllMergeRequestDiscussion`: the requests it issued and
what it returned. `none` is "out of fuel". -/
def listAllMergeRequestDiscussion (cli : Client) (projectID : String) (mergeRequest : Int) :
    Nat → ListMergeRequestDiscussionsOptions →
      Option (List Request × Except Error (List Discussion))
  | 0, _ => none
  | fuel + 1, opts =>
    let req := Request.listMergeRequestDiscussions projectID mergeRequest opts
    match cli.listMergeRequestDiscussions projectID mergeRequest opts with
    | .error err => some ([req], .error err)
    | .ok (discussions, resp) =>
      if resp.nextPage = 0 then some ([req], .ok discussions)
      else
        let newOpts : ListMergeRequestDiscussionsOptions :=
          { page := resp.nextPage, perPage := opts.perPage }
        match listAllMergeRequestDiscussion cli projectID mergeRequest fuel newOpts with
        | none => none
        | some (reqs, .error err) => some (req :: reqs, .error err)
        | some (reqs, .ok restDiscussions) =>
          some (req :: reqs, .ok (discussions ++ restDiscussions))

namespace MergeRequestDiscussionCommenter

/-- The method `Post`, given the pointer `c`: it writes the path, joined to the
working directory, into the location object of the comment `c` points to, then
appends `c` to the buffer and returns nil. When the comment has no location the
write goes through a nil pointer: `Post` panics before anything is changed,
which is the outcome `none`. Returns the new state and the outcome. -/
def Post (s : Store) (c : CommentPtr) : Store × Option Outcome :=
  match (s.memory c).location with
  | none => (s, none)
  | some l =>
    let path := filepathToSlash (filepathJoin [s.wd, (s.locations l).path])
    ({ s with
        locations := fun q => if q = l then { s.locations l with path := path } else s.locations q
        postComments := s.postComments ++ [c] },
      some { err := none, log := [] })

/-- The inner loop body of `createPostedComments`: one note. -/
def addNote (postedcs : PostedComments) (note : Note) : PostedComments :=
  match note.position with
  | none => postedcs
  | some pos =>
    if pos.newPath = "" ∨ pos.newLine = 0 ∨ note.body = "" then postedcs
    else postedcs.AddPostedComment pos.newPath pos.newLine note.body

/-- The two nested loops of `createPostedComments` over a listing. -/
def postedOf (discussions : List Discussion) : PostedComments :=
  discussions.foldl (fun postedcs d => d.notes.foldl addNote postedcs) []

/-- The method `createPostedComments`. -/
def createPostedComments (g : MergeRequestDiscussionCommenter) (cli : Client) (fuel : Nat) :
    Option (List Request × Except Error PostedComments) :=
  match listAllMergeRequestDiscussion cli g.projects g.pr fuel { page := 0, perPage := 100 } with
  | none => none
  | some (reqs, .error err) =>
    some (reqs, .error (.wrapf "failed to list all merge request discussions" err))
  | some (reqs, .ok discussions) => some (reqs, .ok (postedOf discussions))

/-- The body computed for a comment in the loop of `postCommentsForEach`. -/
def bodyOf (u : Commentutil) (c : Comment) : String :=
  let body := u.MarkdownComment c
  let suggestion := u.MarkdownSuggestions c
  if suggestion ≠ "" then body ++ "\n\n" ++ suggestion else body

/-- The guard of the loop of `postCommentsForEach`: true when the comment is
skipped (`continue`). -/
def skipped (u : Commentutil) (postedcs : PostedComments) (c : Comment) : Bool :=
  !c.inDiffFile || c.startLine == 0 || postedcs.IsPosted c c.startLine (bodyOf u c)

/-- The payload built by the goroutine of `postCommentsForEach` for a comment. -/
def discussionFor (u : Commentutil) (g : MergeRequestDiscussionCommenter) (targetBranch : Branch)
    (c : Comment) : CreateMergeRequestDiscussionOptions :=
  let pos : NotePosition :=
    { startSHA := targetBranch.commitID
      headSHA := g.sha
      baseSHA := targetBranch.commitID
      positionType := "text"
      newPath := c.path
      newLine := c.startLine
      oldPath := ""
      oldLine := 0 }
  let pos := if c.oldPath ≠ "" ∧ c.oldLine ≠ 0 then
    { pos with oldPath := c.oldPath, oldLine := c.oldLine } else pos
  { body := bodyOf u c, position := pos }

/-- The payloads of the goroutines started by the loop of
`postCommentsForEach`, in the order they are started. -/
def dispatched (u : Commentutil) (g : MergeRequestDiscussionCommenter) (postedcs : PostedComments)
    (targetBranch : Branch) : List CreateMergeRequestDiscussionOptions :=
  g.postComments.filterMap fun c =>
    if skipped u postedcs c then none else some (discussionFor u g targetBranch c)

/-- What the goroutine number `i` returns for its payload. -/
def goroutine (cli : Client) (g : MergeRequestDiscussionCommenter) (i : Nat)
    (discussion : CreateMergeRequestDiscussionOptions) : Option Error :=
  match cli.createMergeRequestDiscussion i g.projects g.pr discussion with
  | some err => some (.wrapf "failed to create merge request discussion" err)
  | none => none

/-- The results of the goroutines, in the order they were started. -/
def goroutineResults (cli : Client) (g : MergeRequestDiscussionCommenter)
    (jobs : List CreateMergeRequestDiscussionOptions) : List (Option Error) :=
  jobs.enum.map fun p => goroutine cli g p.1 p.2

/-- The method `postCommentsForEach`; `log` holds the requests the running
Flush has issued before it. -/
def postCommentsForEach (u : Commentutil) (cli : Client) (sched : List Nat) (ctx : Context)
    (g : MergeRequestDiscussionCommenter) (postedcs : PostedComments) (log : List Request) :
    Outcome :=
  let log1 := log ++ [Request.getMergeRequest g.projects g.pr]
  match withContext (ctx log.length) (cli.getMergeRequest g.projects g.pr) with
  | .error err => { err := some (.wrapf "failed to get merge request" err), log := log1 }
  | .ok mr =>
    let log2 := log1 ++ [Request.getBranch mr.targetProjectID mr.targetBranch]
    match cli.getBranch mr.targetProjectID mr.targetBranch with
    | .error err => { err := some err, log := log2 }
    | .ok targetBranch =>
      let jobs := dispatched u g postedcs targetBranch
      { err := Group.Wait (goroutineResults cli g jobs) sched
        log := log2 ++ jobs.map (Request.createMergeRequestDiscussion g.projects g.pr) }

/-- The method `Flush`. `none` is "out of fuel" (the listing never ended). -/
def Flush (u : Commentutil) (cli : Client) (sched : List Nat) (fuel : Nat) (ctx : Context)
    (g : MergeRequestDiscussionCommenter) :
    Option (MergeRequestDiscussionCommenter × Outcome) :=
  match createPostedComments g cli fuel with
  | none => none
  | some (reqs, .error err) =>
    some (g, { err := some (.wrapf "failed to create posted comments" err), log := reqs })
  | some (reqs, .ok postedcs) => some (g, postCommentsForEach u cli sched ctx g postedcs reqs)

end MergeRequestDiscussionCommenter

open MergeRequestDiscussionCommenter

/-- The method `Flush` on the commenter in memory: it reads the buffered comment
objects through their pointers and writes neither the buffer nor any object. -/
def Store.Flush (s : Store) (u : Commentutil) (cli : Client) (sched : List Nat) (fuel : Nat)
    (ctx : Context) : Option (Store × Outcome) :=
  match MergeRequestDiscussionCommenter.Flush u cli sched fuel ctx s.read with
  | none => none
  | some (_, out) => some (s, out)

/-! ## Listing chains -/

/-- A finite chain of listing pages answered by the server from page number
`page` on: each entry is a page's discussions and the next-page number it
reports; every page but the last reports a non-zero next page, where the next
entry is found, and the last reports 0. -/
def PageChain (cli : Client) (projectID : String) (mergeRequest : Int) (perPage : Int) :
    Int → List (List Discussion × Int) → Prop
  | _, [] => False
  | page, [(ds, next)] =>
    cli.listMergeRequestDiscussions projectID mergeRequest { page := page, perPage := perPage }
      = .ok (ds, { nextPage := next }) ∧ next = 0
  | page, (ds, next) :: p :: rest =>
    cli.listMergeRequestDiscussions projectID mergeRequest { page := page, perPage := perPage }
      = .ok (ds, { nextPage := next }) ∧ next ≠ 0 ∧
      PageChain cli projectID mergeRequest perPage next (p :: rest)

/-- A chain of listing pages that breaks: the pages of `pages` are answered, each
reporting a non-zero next page, and the request after them fails with `e`. With
no page in `pages` it is the first request that fails. -/
def FailingChain (cli : Client) (projectID : String) (mergeRequest : Int) (perPage : Int) :
    Int → List (List Discussion × Int) → Error → Prop
  | page, [], e =>
    cli.listMergeRequestDiscussions projectID mergeRequest { page := page, perPage := perPage }
      = .error e
  | page, (ds, next) :: rest, e =>
    cli.listMergeRequestDiscussions projectID mergeRequest { page := page, perPage := perPage }
      = .ok (ds, { nextPage := next }) ∧ next ≠ 0 ∧
      FailingChain cli projectID mergeRequest perPage next rest e

/-- The requests the listing of a chain issues: one per page, the first for
`page`, each further one for the next-page number reported before it. -/
def chainRequests (projectID : String) (mergeRequest : Int) (perPage : Int) :
    Int → List (List Discussion × Int) → List Request
  | _, [] => []
  | page, (_, next) :: rest =>
    Request.listMergeRequestDiscussions projectID mergeRequest { page := page, perPage := perPage }
      :: chainRequests projectID mergeRequest perPage next rest

/-! ## Specification vocabulary -/

/-- The eligibility predicate in the words of the specification: a buffered
comment is eligible for creation iff it is in the diff, its line is not 0 and
it is not posted at its (path, line, body). -/
def eligible (u : Commentutil) (postedcs : PostedComments) (c : Comment) : Bool :=
  c.inDiffFile && c.startLine != 0 && !postedcs.IsPosted c c.startLine (bodyOf u c)

/-- The (path, line) a creation call targets. -/
def target (o : CreateMergeRequestDiscussionOptions) : String × Int :=
  (o.position.newPath, o.position.newLine)

/-- The note a successful creation call leaves on the server. -/
def noteOfCall (o : CreateMergeRequestDiscussionOptions) : Note :=
  { body := o.body, position := some o.position }

/-! ## The scenario of `TestGitLabMergeRequestDiscussionCommenter_Post_Flush_review_api` -/

/-- A body renderer for the scenarios: the tool name, when there is one, in
front of the message; no suggestion block. -/
def scenarioUtil : Commentutil :=
  { MarkdownComment := fun c =>
      (if c.toolName ≠ "" then "**[" ++ c.toolName ++ "]** " else "") ++ c.message
    MarkdownSuggestions := fun _ => "" }

/-- A comment with a path, a line, its in-diff flag and a message, and no
old-side position. -/
def mkComment (path : String) (line : Int) (inDiff : Bool) (message : String) : Comment :=
  { path := path, startLine := line, inDiffFile := inDiff, oldPath := "", oldLine := 0,
    toolName := "", message := message }

def alreadyCommented1 : Comment := mkComment "file.go" 1 true "already commented"

def alreadyCommented2 : Comment := mkComment "another/file.go" 14 true "already commented 2"

def newComment1 : Comment := mkComment "file.go" 14 true "new comment"

def newComment2 : Comment := mkComment "file2.go" 15 true "new comment 2"

def newComment3 : Comment :=
  { mkComment "new_file.go" 14 true "new comment 3" with oldPath := "old_file.go", oldLine := 7 }

def commentOutsideDiff : Comment := mkComment "path.go" 14 false "comment outside diff"

def commentWithoutLnum : Comment := mkComment "path.go" 0 true "comment without lnum"

/-- The seven comments the test posts, in order. -/
def testComments : List Comment :=
  [alreadyCommented1, alreadyCommented2, newComment1, newComment2, newComment3,
    commentOutsideDiff, commentWithoutLnum]

/-- A note position as the test server reports it: only the new side is set. -/
def notePos (path : String) (line : Int) : NotePosition :=
  { baseSHA := "", startSHA := "", headSHA := "", positionType := "", newPath := path,
    newLine := line, oldPath := "", oldLine := 0 }

/-- The first page of the test server: a duplicate of `alreadyCommented1` and an
unrelated note on the same line. -/
def testPage1 : List Discussion :=
  [{ notes := [{ body := bodyOf scenarioUtil alreadyCommented1,
                 position := some (notePos "file.go" 1) },
               { body := "unrelated commented", position := some (notePos "file.go" 1) }] }]

/-- The second page of the test server: a duplicate of `alreadyCommented2`. -/
def testPage2 : List Discussion :=
  [{ notes := [{ body := bodyOf scenarioUtil alreadyCommented2,
                 position := some (notePos "another/file.go" 14) }] }]

/-- The test server: page "2" is the last one, every other page request gets
the first page and the header `X-Next-Page: 2`; lookups and creations succeed. -/
def testClient : Client :=
  { listMergeRequestDiscussions := fun _ _ opts =>
      if opts.page = 2 then .ok (testPage2, { nextPage := 0 })
      else .ok (testPage1, { nextPage := 2 })
    getMergeRequest := fun _ _ => .ok { targetProjectID := 14, targetBranch := "test-branch" }
    getBranch := fun _ _ => .ok { commitID := "xxx" }
    createMergeRequestDiscussion := fun _ _ _ _ => none }

/-- The commenter the test makes: project `o/r`, merge request 14, head `sha`,
run from the root of the repository. -/
def testCommenter : MergeRequestDiscussionCommenter :=
  { pr := 14, sha := "sha", projects := "o/r", postComments := [], wd := "" }

/-- The comments of the scenarios that callers hold in memory: the seven
comments of the test, then an in-diff comment without a path. -/
def scenarioComments : List Comment :=
  testComments ++ [mkComment "" 5 true "no path"]

/-- The comment objects of the scenarios, by address: the comments of
`scenarioComments` at the addresses 0 to 7, each with a location object of its
own at the same address, and an object without a location at every other
address. -/
def scenarioMemory : CommentPtr → CommentObject :=
  fun c =>
    match scenarioComments[c]? with
    | some comment =>
      { location := some c, inDiffFile := comment.inDiffFile, oldPath := comment.oldPath,
        oldLine := comment.oldLine, toolName := comment.toolName, message := comment.message }
    | none =>
      { location := none, inDiffFile := true, oldPath := "", oldLine := 0, toolName := "",
        message := "no location" }

/-- The location objects of the scenarios, by address. -/
def scenarioLocations : LocationPtr → Location :=
  fun l =>
    match scenarioComments[l]? with
    | some comment => { path := comment.path, startLine := comment.startLine }
    | none => { path := "", startLine := 0 }

/-- The commenter of the test in memory, before any comment is posted. -/
def testStore : Store :=
  { pr := 14, sha := "sha", projects := "o/r", postComments := [], wd := "",
    memory := scenarioMemory, locations := scenarioLocations }

/-- The store after the comments at the addresses `cs` were posted in order. -/
def postAll (s : Store) (cs : List CommentPtr) : Store :=
  cs.foldl (fun s c => (Post s c).1) s

/-- The commenter after the test has posted its seven comments. -/
def postedCommenter : MergeRequestDiscussionCommenter :=
  (postAll testStore [0, 1, 2, 3, 4, 5, 6]).read

/-- A context that is never done. -/
def background : Context := fun _ => none

/-! ## Further scenarios -/

/-- A server whose listing is the single page `listing`, and whose lookups and
creations succeed. -/
def singlePageClient (listing : List Discussion) : Client :=
  { listMergeRequestDiscussions := fun _ _ _ => .ok (listing, { nextPage := 0 })
    getMergeRequest := fun _ _ => .ok { targetProjectID := 14, targetBranch := "test-branch" }
    getBranch := fun _ _ => .ok { commitID := "xxx" }
    createMergeRequestDiscussion := fun _ _ _ _ => none }

/-- The discussions a server gains when the creation calls `calls` succeed: one
discussion per call, holding its note. -/
def discussionsOfCalls (calls : List CreateMergeRequestDiscussionOptions) : List Discussion :=
  calls.map fun o => { notes := [noteOfCall o] }

/-- A commenter run from the root of the repository whose buffer was filled by
posting one in-diff comment that has no path. -/
def pathlessCommenter : MergeRequestDiscussionCommenter :=
  (Post testStore 7).1.read

/-- The creation call a Flush issues for the comment of `pathlessCommenter`. -/
def pathlessCall : CreateMergeRequestDiscussionOptions :=
  { body := "no path"
    position :=
      { baseSHA := "xxx", startSHA := "xxx", headSHA := "sha", positionType := "text",
        newPath := "", newLine := 5, oldPath := "", oldLine := 0 } }

/-- A commenter whose buffer was filled by posting `newComment1`, from the root
of the repository. -/
def oneCommentCommenter : MergeRequestDiscussionCommenter :=
  (Post testStore 2).1.read

/-- The test server with creation calls that may fail: the creation call number
`i` of a Flush (in dispatch order) is answered by `answers i`. -/
def failingClient (answers : Nat → Option Error) : Client :=
  { testClient with createMergeRequestDiscussion := fun i _ _ _ => answers i }

/-- Only the second creation call fails. -/
def secondFails : Nat → Option Error :=
  fun i => if i = 1 then some (.api "500 Internal Server Error") else none

/-- The first creation call fails with a 500, the second with a 403; the others
succeed. -/
def firstTwoFail : Nat → Option Error :=
  fun i =>
    if i = 0 then some (.api "500 Internal Server Error")
    else if i = 1 then some (.api "403 Forbidden")
    else none

/-- The test server with a broken second page: the first page is answered and
announces page 2, the request for page 2 fails. -/
def brokenSecondPage : Client :=
  { testClient with
    listMergeRequestDiscussions := fun _ _ opts =>
      if opts.page = 2 then .error (.api "502 Bad Gateway")
      else .ok (testPage1, { nextPage := 2 }) }

/-- A commenter, run from the root of the repository, to which `newComment1`
was posted twice. -/
def twicePostedCommenter : MergeRequestDiscussionCommenter :=
  (postAll testStore [2, 2]).read

/-- The test's commenter in memory when reviewdog runs in the directory `sub`
of the repository. -/
def subdirStore : Store :=
  { testStore with wd := "sub" }

/-- The last page of `pathlessSecondPage`: one note, with the path, line and
body of the comment of `pathlessCommenter`. -/
def pathlessPage : List Discussion :=
  [{ notes := [{ body := "no path", position := some (notePos "" 5) }] }]

/-- The test server with another second page: the first page is answered and
announces page 2, and page 2, the last one, is `pathlessPage`. -/
def pathlessSecondPage : Client :=
  { testClient with
    listMergeRequestDiscussions := fun _ _ opts =>
      if opts.page = 2 then .ok (pathlessPage, { nextPage := 0 })
      else .ok (testPage1, { nextPage := 2 }) }

/-- A context that is live while Flush lists and looks up the merge request
(two listing requests in the test scenario, then the lookup) and is cancelled
from then on, before any creation call is dispatched. -/
def cancelledAfterLookup : Context :=
  fun t => if t ≤ 2 then none else some Canceled

/-- A context that is cancelled before Flush starts. -/
def cancelledBefore : Context := fun _ => some Canceled

/-! ## `cmd/reviewdog/main.go` -/

/-- The message of an `Error`, as `Error()` gives it: a wrapping error shows its
own text, a colon and the message of its cause. -/
def Error.message : Error → String
  | .api m => m
  | .wrapf m c => m ++ ": " ++ c.message

/-- The type `option`: the values of the command-line flags; `efms` is a
`strslice`. -/
structure option where
  version : Bool
  diffCmd : String
  diffStrip : Int
  efms : List String
  f : String
  list : Bool
  name : String
  ci : String
  conf : String
  reporter : String
  deriving DecidableEq, Repr

/-- The function `toolName`. -/
def toolName (opt : option) : String :=
  let name := opt.name
  let name := if name = "" ∧ opt.f ≠ "" then opt.f else name
  name

/-- An error `run` can return, told apart by the place in `main.go` that makes
it; `passed` is an error made outside `main.go` and returned unchanged. -/
inductive RunError where
  | ciDeprecated
  | unknownReporter (reporter : String)
  | diffCommandEmpty
  | envNotSet (env : String)
  | githubBaseURLInvalid (baseURL : String) (cause : Error)
  | confNotFound
  | failToOpenConfig (cause : RunError)
  | configInvalid (cause : Error)
  | failToCreateParser (cause : Error)
  | passed (e : Error)
  deriving DecidableEq, Repr

/-- The message of each error of `main.go`, as its `errors.New` or `fmt.Errorf`
writes it. -/
def RunError.message : RunError → String
  | .ciDeprecated =>
    "-ci flag is deprecated.\nSee -reporter flag for migration and set " ++
      "-reporter=\"github-pr-review\" or -reporter=\"github-pr-check\""
  | .unknownReporter reporter => "unknown -reporter: " ++ reporter
  | .diffCommandEmpty => "diff command is empty"
  | .envNotSet env => "environment variable $" ++ env ++ " is not set"
  | .githubBaseURLInvalid baseURL cause =>
    "GitHub base URL is invalid: " ++ baseURL ++ ", " ++ cause.message
  | .confNotFound => ".reviewdog.yml not found"
  | .failToOpenConfig cause => "fail to open config: " ++ cause.message
  | .configInvalid cause => "config is invalid: " ++ cause.message
  | .failToCreateParser cause =>
    "fail to create parser. use either -f or -efm: " ++ cause.message
  | .passed e => e.message

/-- What `cienv.GetPullRequestInfo` reports about the build. -/
structure PullRequestInfo where
  owner : String
  repo : String
  pullRequest : Int
  sha : String
  deriving DecidableEq, Repr

/-- The HTTP client `githubClient` and `gitlabClient` set up. -/
structure APIClient where
  token : String
  baseURL : String
  insecureSkipVerify : Bool
  deriving DecidableEq, Repr

/-- A GitHub pull-request or GitLab merge-request service, as made by
`reviewdog.NewGitHubPullReqest` and `reviewdog.NewGitLabMergeRequest`. -/
inductive RemoteService where
  | gitHubPullRequest (client : APIClient) (owner repo : String) (pr : Int) (sha : String)
  | gitLabMergeRequest (client : APIClient) (pid : String) (pr : Int) (sha : String)
  deriving DecidableEq, Repr

/-- The values a `reviewdog.CommentService` takes in `run`: one of the two
writers to `w`, a remote service, or `MultiCommentService` of two services. -/
inductive CommentService where
  | unifiedCommentWriter
  | rawCommentWriter
  | remote (gs : RemoteService)
  | multi (first second : CommentService)
  deriving DecidableEq, Repr

/-- The values a `reviewdog.DiffService` takes in `run`: a diff command with its
strip count, or a remote service. -/
inductive DiffService where
  | diffCmd (cmds : List String) (strip : Int)
  | remote (gs : RemoteService)
  deriving DecidableEq, Repr

/-- One pre-defined errorformat of `fmts.DefinedFmts`. -/
structure Fmt where
  name : String
  description : String
  url : String
  deriving DecidableEq, Repr

/-- One step of `run` that acts on the outside or makes or runs a component, in
the order `run` takes them. Reading an environment variable is not a step. -/
inductive Step where
  | openFile (path : String)
  | println (s : String)
  | stderr (s : String)
  | table (rows : List String)
  | newCommentWriter (cs : CommentService)
  | runDoghouse (isProject : Bool)
  | getPullRequestInfo
  | newRemoteService (gs : RemoteService)
  | newDiffCmd (cmds : List String) (strip : Int)
  | readFile (path : String)
  | projectRun (conf : String) (cs : CommentService) (ds : DiffService)
  | newParser (formatName : String) (errorformat : List String)
  | appRun (toolName : String) (cs : CommentService) (ds : DiffService)
  deriving DecidableEq, Repr

/-- Everything outside `main.go` that `run` consults: the environment, and the
answers of the packages it calls. `getPullRequestInfo` gives the three results
of `cienv.GetPullRequestInfo`; an `Option Error` is the returned error. -/
structure World where
  Version : String
  getenv : String → String
  definedFmts : List Fmt
  tabwriterFlush : Option Error
  runDoghouse : option → Bool → Option Error
  getPullRequestInfo : PullRequestInfo × Bool × Option Error
  urlParse : String → Option Error
  newGitHubPullReqest : APIClient → String → String → Int → String → Option Error
  newGitLabMergeRequest : APIClient → String → Int → String → Option Error
  shellwordsParse : String → Except Error (List String)
  readFile : String → Except Error String
  projectParse : String → Option Error
  projectRun : String → CommentService → DiffService → Option Error
  newParser : String → List String → Option Error
  appRun : String → String → List String → CommentService → DiffService → Option Error

/-- What `run` produced: the returned error (`none` is nil) and its steps. -/
structure RunOutcome where
  err : Option RunError
  steps : List Step
  deriving DecidableEq, Repr

/-- The function `sortedFmts`: the formats ordered by name. -/
def sortedFmts (fs : List Fmt) : List Fmt :=
  fs.mergeSort fun a b => !decide (b.name < a.name)

/-- The function `runList`: one row per format, sorted by name, then the row of
checkstyle, handed to the tab writer; returns what `Flush` returns. -/
def runList (world : World) : RunOutcome :=
  let row := fun (name description url : String) =>
    name ++ "\t" ++ description ++ "\t- " ++ url ++ "\n"
  let rows := (sortedFmts world.definedFmts).map fun f => row f.name f.description f.url
  let rows := rows ++ [row "checkstyle" "checkstyle XML format" "http://checkstyle.sourceforge.net/"]
  { err := world.tabwriterFlush.map RunError.passed, steps := [Step.table rows] }

/-- The function `diffService`: the steps taken and the service or the error. -/
def diffService (world : World) (s : String) (strip : Int) :
    List Step × Except RunError DiffService :=
  match world.shellwordsParse s with
  | .error err => ([], .error (.passed err))
  | .ok cmds =>
    if cmds.length < 1 then ([], .error .diffCommandEmpty)
    else ([Step.newDiffCmd cmds strip], .ok (.diffCmd cmds strip))

/-- The function `nonEmptyEnv`. -/
def nonEmptyEnv (world : World) (env : String) : Except RunError String :=
  let v := world.getenv env
  if v = "" then .error (.envNotSet env) else .ok v

/-- The function `insecureSkipVerify`. -/
def insecureSkipVerify (world : World) : Bool :=
  world.getenv "REVIEWDOG_INSECURE_SKIP_VERIFY" == "true"

/-- The constant `defaultGitHubAPI`. -/
def defaultGitHubAPI : String := "https://api.github.com/"

/-- The function `githubBaseURL`. -/
def githubBaseURL (world : World) : Except RunError String :=
  let baseURL := world.getenv "GITHUB_API"
  let baseURL := if baseURL = "" then defaultGitHubAPI else baseURL
  match world.urlParse baseURL with
  | some err => .error (.githubBaseURLInvalid baseURL err)
  | none => .ok baseURL

/-- The function `githubClient`. -/
def githubClient (world : World) (token : String) : Except RunError APIClient :=
  match githubBaseURL world with
  | .error err => .error err
  | .ok baseURL =>
    .ok { token := token, baseURL := baseURL, insecureSkipVerify := insecureSkipVerify world }

/-- The function `githubService`. Of its three results the model keeps the
error, or else the service, which is nil (`none`) exactly when `isPR` is false. -/
def githubService (world : World) : List Step × Except RunError (Option RemoteService) :=
  match nonEmptyEnv world "REVIEWDOG_GITHUB_API_TOKEN" with
  | .error err => ([], .error err)
  | .ok token =>
    match world.getPullRequestInfo with
    | (_, _, some err) => ([Step.getPullRequestInfo], .error (.passed err))
    | (g, isPR, none) =>
      if !isPR then ([Step.getPullRequestInfo], .ok none)
      else
        match githubClient world token with
        | .error err => ([Step.getPullRequestInfo], .error err)
        | .ok client =>
          let gs := RemoteService.gitHubPullRequest client g.owner g.repo g.pullRequest g.sha
          match world.newGitHubPullReqest client g.owner g.repo g.pullRequest g.sha with
          | some err => ([Step.getPullRequestInfo, Step.newRemoteService gs], .error (.passed err))
          | none => ([Step.getPullRequestInfo, Step.newRemoteService gs], .ok (some gs))

/-- The constant `defaultGitLabAPI`. -/
def defaultGitLabAPI : String := "https://gitlab.com/"

/-- The function `gitlabBaseURL`. -/
def gitlabBaseURL (world : World) : String :=
  let baseURL := world.getenv "GITLAB_API"
  if baseURL = "" then defaultGitLabAPI else baseURL

/-- The function `gitlabClient`. -/
def gitlabClient (world : World) (token : String) : Except RunError APIClient :=
  .ok { token := token, baseURL := gitlabBaseURL world,
        insecureSkipVerify := insecureSkipVerify world }

/-- The function `gitlabService`, with the results kept as for `githubService`. -/
def gitlabService (world : World) (_ci : String) :
    List Step × Except RunError (Option RemoteService) :=
  match nonEmptyEnv world "REVIEWDOG_GITLAB_API_TOKEN" with
  | .error err => ([], .error err)
  | .ok token =>
    match world.getPullRequestInfo with
    | (_, _, some err) => ([Step.getPullRequestInfo], .error (.passed err))
    | (g, isPR, none) =>
      if !isPR then ([Step.getPullRequestInfo], .ok none)
      else
        match gitlabClient world token with
        | .error err => ([Step.getPullRequestInfo], .error err)
        | .ok client =>
          let pid := g.owner ++ "/" ++ g.repo
          let gs := RemoteService.gitLabMergeRequest client pid g.pullRequest g.sha
          match world.newGitLabMergeRequest client pid g.pullRequest g.sha with
          | some err => ([Step.getPullRequestInfo, Step.newRemoteService gs], .error (.passed err))
          | none => ([Step.getPullRequestInfo, Step.newRemoteService gs], .ok (some gs))

/-- The loop of `readConf` over the candidate files: the first file that can be
read wins. -/
def readConfFiles (world : World) : List String → List Step × Except RunError String
  | [] => ([], .error .confNotFound)
  | f :: rest =>
    match world.readFile f with
    | .ok bytes => ([Step.readFile f], .ok bytes)
    | .error _ =>
      let r := readConfFiles world rest
      (Step.readFile f :: r.1, r.2)

/-- The function `readConf`. -/
def readConf (world : World) (conf : String) : List Step × Except RunError String :=
  let conffiles :=
    if conf ≠ "" then [conf]
    else [".reviewdog.yaml", ".reviewdog.yml", "reviewdog.yaml", "reviewdog.yml"]
  readConfFiles world conffiles

/-- The function `projectConfig`; the configuration is kept as its text. -/
def projectConfig (world : World) (path : String) : List Step × Except RunError String :=
  match readConf world path with
  | (steps, .error err) => (steps, .error (.failToOpenConfig err))
  | (steps, .ok b) =>
    match world.projectParse b with
    | some err => (steps, .error (.configInvalid err))
    | none => (steps, .ok b)

/-- The function `newParserFromOpt`; the parser is kept as the two options it is
made from. -/
def newParserFromOpt (world : World) (opt : option) : List Step × Option RunError :=
  match world.newParser opt.f opt.efms with
  | some err => ([Step.newParser opt.f opt.efms], some (.failToCreateParser err))
  | none => ([Step.newParser opt.f opt.efms], none)

/-- The end of `run`, after the switch on the reporter: a project run, or a
parser and a run of the application. -/
def runReport (world : World) (opt : option) (isProject : Bool) (cs : CommentService)
    (ds : DiffService) (steps : List Step) : RunOutcome :=
  if isProject then
    match projectConfig world opt.conf with
    | (steps1, .error err) => { err := some err, steps := steps ++ steps1 }
    | (steps1, .ok conf) =>
      { err := (world.projectRun conf cs ds).map RunError.passed
        steps := steps ++ steps1 ++ [Step.projectRun conf cs ds] }
  else
    match newParserFromOpt world opt with
    | (steps1, some err) => { err := some err, steps := steps ++ steps1 }
    | (steps1, none) =>
      { err := (world.appRun (toolName opt) opt.f opt.efms cs ds).map RunError.passed
        steps := steps ++ steps1 ++ [Step.appRun (toolName opt) cs ds] }

/-- The function `run`. -/
def run (world : World) (opt : option) : RunOutcome :=
  let steps := [Step.openFile "../phpcs-result.xml"]
  if opt.version then { err := none, steps := steps ++ [Step.println world.Version] }
  else if opt.list then
    let r := runList world
    { err := r.err, steps := steps ++ r.steps }
  else if opt.ci ≠ "" then { err := some .ciDeprecated, steps := steps }
  else
    let isProject : Bool := opt.efms.length == 0 && opt.f == ""
    let cs : CommentService :=
      if isProject then .unifiedCommentWriter else .rawCommentWriter
    let steps := steps ++ [Step.newCommentWriter cs]
    if opt.reporter = "github-pr-check" then
      { err := (world.runDoghouse opt isProject).map RunError.passed
        steps := steps ++ [Step.runDoghouse isProject] }
    else if opt.reporter = "github-pr-review" then
      if world.getenv "REVIEWDOG_GITHUB_API_TOKEN" = "" then
        { err := none, steps := steps ++ [Step.stderr "REVIEWDOG_GITHUB_API_TOKEN is not set\n"] }
      else
        match githubService world with
        | (steps1, .error err) => { err := some err, steps := steps ++ steps1 }
        | (steps1, .ok none) =>
          { err := none
            steps := steps ++ steps1 ++
              [Step.stderr ("reviewdog: this is not PullRequest build. CI: " ++ opt.ci ++ "\n")] }
        | (steps1, .ok (some gs)) =>
          runReport world opt isProject (.multi (.remote gs) cs) (.remote gs) (steps ++ steps1)
    else if opt.reporter = "gitlab-mr-review" then
      if world.getenv "REVIEWDOG_GITLAB_API_TOKEN" = "" then
        { err := none, steps := steps ++ [Step.stderr "REVIEWDOG_GITLAB_API_TOKEN is not set\n"] }
      else
        match gitlabService world opt.ci with
        | (steps1, .error err) => { err := some err, steps := steps ++ steps1 }
        | (steps1, .ok none) =>
          { err := none
            steps := steps ++ steps1 ++
              [Step.stderr ("reviewdog: this is not PullRequest build. CI: " ++ opt.ci ++ "\n")] }
        | (steps1, .ok (some gs)) =>
          runReport world opt isProject (.multi (.remote gs) cs) (.remote gs) (steps ++ steps1)
    else if opt.reporter = "local" then
      match diffService world opt.diffCmd opt.diffStrip with
      | (steps1, .error err) => { err := some err, steps := steps ++ steps1 }
      | (steps1, .ok d) => runReport world opt isProject cs d (steps ++ steps1)
    else { err := some (.unknownReporter opt.reporter), steps := steps }

/-- The default values of the flags, as `init` declares them. -/
def defaultOption : option :=
  { version := false, diffCmd := "", diffStrip := 1, efms := [], f := "", list := false,
    name := "", ci := "", conf := "", reporter := "local" }

/-- A world with an empty environment and no configuration file, where every
other call succeeds and the build is not a pull-request build. -/
def quietWorld : World :=
  { Version := "0.9.11"
    getenv := fun _ => ""
    definedFmts := []
    tabwriterFlush := none
    runDoghouse := fun _ _ => none
    getPullRequestInfo := ({ owner := "", repo := "", pullRequest := 0, sha := "" }, false, none)
    urlParse := fun _ => none
    newGitHubPullReqest := fun _ _ _ _ _ => none
    newGitLabMergeRequest := fun _ _ _ _ => none
    shellwordsParse := fun s => .ok [s]
    readFile := fun _ => .error (.api "no such file or directory")
    projectParse := fun _ => none
    projectRun := fun _ _ _ => none
    newParser := fun _ _ => none
    appRun := fun _ _ _ _ _ => none }

/-! ## `service/bitbucket/cloud_api_client.go` -/

/-- A Go error as `checkAPIError` tells errors apart: a value of type
`bbapi.GenericOpenAPIError`, with the text of `Error()` and the body, or an
error of any other type, with its message. -/
inductive GoError where
  | generic (error : String) (body : String)
  | other (msg : String)
  deriving DecidableEq, Repr

/-- The method `Error()`. -/
def GoError.Error : GoError → String
  | .generic error _ => error
  | .other msg => msg

/-- The parts of `*http.Response` the client reads: the status code, and what
`ioutil.ReadAll(resp.Body)` returns. -/
structure HTTPResponse where
  statusCode : Int
  body : Except GoError String

/-- The type `ReportRequest`. -/
structure ReportRequest where
  owner : String
  repository : String
  commit : String
  reportID : String
  type : String
  title : String
  reporter : String
  result : String
  details : String
  logoURL : String
  deriving DecidableEq, Repr

/-- The type `AnnotationsRequest`. -/
structure AnnotationsRequest where
  owner : String
  repository : String
  commit : String
  reportID : String
  comments : List Comment
  deriving DecidableEq, Repr

/-- The type `CloudAPIClient`, as the answers of the Bitbucket API to the two
requests it sends: the response and error that `Execute` returns. -/
structure CloudAPIClient where
  createOrUpdateReport : ReportRequest → Option HTTPResponse × Option GoError
  bulkCreateOrUpdateAnnotations : AnnotationsRequest → Option HTTPResponse × Option GoError

/-- The constant `http.StatusOK`. -/
def StatusOK : Int := 200

namespace CloudAPIClient

/-- The method `checkAPIError`. -/
def checkAPIError (err : Option GoError) (resp : Option HTTPResponse) (expectedCode : Int) :
    Option GoError :=
  match err with
  | some (.generic error body) =>
    some (.other ("bitbucket API error:\n\tResponse error: " ++ error ++
      "\n\tResponse body: " ++ body))
  | _ =>
    match resp with
    | none => none
    | some resp =>
      if resp.statusCode ≠ expectedCode then
        match resp.body with
        | .error err => some err
        | .ok body =>
          let msg := "received unexpected " ++ toString resp.statusCode ++
            " code from Bitbucket API"
          let msg := if body.length > 0 then msg ++ " with message:\n" ++ body else msg
          some (.other msg)
      else none

/-- The method `CreateOrUpdateReport`. -/
def CreateOrUpdateReport (c : CloudAPIClient) (req : ReportRequest) : Option GoError :=
  match c.createOrUpdateReport req with
  | (resp, err) =>
    match checkAPIError err resp StatusOK with
    | some err => some (.other ("bitbucket.CreateOrUpdateReport: " ++ err.Error))
    | none => none

/-- The method `CreateOrUpdateAnnotations`. -/
def CreateOrUpdateAnnotations (c : CloudAPIClient) (req : AnnotationsRequest) : Option GoError :=
  match c.bulkCreateOrUpdateAnnotations req with
  | (resp, err) =>
    match checkAPIError err resp StatusOK with
    | some err => some (.other ("bitbucket.BulkCreateOrUpdateAnnotations: " ++ err.Error))
    | none => none

end CloudAPIClient

/-- A report request of the scenarios. -/
def scenarioReport : ReportRequest :=
  { owner := "reviewdog", repository := "reviewdog", commit := "sha", reportID := "golint",
    type := "BUG", title := "golint", reporter := "reviewdog", result := "PASSED",
    details := "", logoURL := "" }

/-- A Bitbucket API call that fails before there is a response: `Execute`
returns no response and an error whose type is not `bbapi.GenericOpenAPIError`. -/
def unreachableAPI : CloudAPIClient :=
  { createOrUpdateReport := fun _ =>
      (none, some (.other "dial tcp: lookup api.bitbucket.org: no such host"))
    bulkCreateOrUpdateAnnotations := fun _ =>
      (none, some (.other "dial tcp: lookup api.bitbucket.org: no such host")) }

/-- A listing with one good note and four notes that each lack one thing: a
position, a path, a line, a body. -/
def defectiveListing : List Discussion :=
  [{ notes := [{ body := "new comment", position := none },
               { body := "new comment", position := some (notePos "" 14) },
               { body := "new comment", position := some (notePos "file.go" 0) },
               { body := "", position := some (notePos "file.go" 14) },
               { body := "unrelated commented", position := some (notePos "file.go" 14) }] }]

/-! ## Listing -/

theorem createdCalls_append (l₁ l₂ : List Request) :
    createdCalls (l₁ ++ l₂) = createdCalls l₁ ++ createdCalls l₂ := by
  simp [createdCalls, List.filterMap_append]

theorem createdCalls_map_create (projectID : String) (mergeRequest : Int)
    (jobs : List CreateMergeRequestDiscussionOptions) :
    createdCalls (jobs.map (Request.createMergeRequestDiscussion projectID mergeRequest)) = jobs := by
  induction jobs with
  | nil => rfl
  | cons j js ih =>
    simp only [createdCalls, List.map_cons, List.filterMap_cons] at ih ⊢
    rw [ih]

/-- The listing issues listing requests only. -/
theorem listAll_createdCalls (cli : Client) (projectID : String) (mergeRequest : Int) :
    ∀ (fuel : Nat) (opts : ListMergeRequestDiscussionsOptions) (reqs : List Request)
      (r : Except Error (List Discussion)),
      listAllMergeRequestDiscussion cli projectID mergeRequest fuel opts = some (reqs, r) →
      createdCalls reqs = [] := by
  intro fuel
  induction fuel with
  | zero => intro opts reqs r h; simp [listAllMergeRequestDiscussion] at h
  | succ n ih =>
    intro opts reqs r h
    unfold listAllMergeRequestDiscussion at h
    cases hans : cli.listMergeRequestDiscussions projectID mergeRequest opts with
    | error err =>
      rw [hans] at h
      simp only [Option.some.injEq, Prod.mk.injEq] at h
      rw [← h.1]; rfl
    | ok pr =>
      obtain ⟨discussions, resp⟩ := pr
      rw [hans] at h
      simp only at h
      by_cases hz : resp.nextPage = 0
      · simp only [hz, if_true, Option.some.injEq, Prod.mk.injEq] at h
        rw [← h.1]; rfl
      · simp only [hz, if_false] at h
        cases hrec : listAllMergeRequestDiscussion cli projectID mergeRequest n
            { page := resp.nextPage, perPage := opts.perPage } with
        | none => rw [hrec] at h; simp at h
        | some pr2 =>
          obtain ⟨reqs2, r2⟩ := pr2
          rw [hrec] at h
          have h2 := ih _ _ _ hrec
          cases r2 with
          | error e =>
            simp only [Option.some.injEq, Prod.mk.injEq] at h
            rw [← h.1]
            simpa [createdCalls] using h2
          | ok rest =>
            simp only [Option.some.injEq, Prod.mk.injEq] at h
            rw [← h.1]
            simpa [createdCalls] using h2

/-- With enough fuel the listing of a finite chain ends: it requests each page
once and returns the pages' discussions concatenated in page order. -/
theorem listAll_of_chain (cli : Client) (projectID : String) (mergeRequest : Int) (perPage : Int) :
    ∀ (pages : List (List Discussion × Int)) (page : Int) (fuel : Nat),
      PageChain cli projectID mergeRequest perPage page pages → pages.length ≤ fuel →
      listAllMergeRequestDiscussion cli projectID mergeRequest fuel
          { page := page, perPage := perPage }
        = some (chainRequests projectID mergeRequest perPage page pages,
            .ok (pages.map Prod.fst).flatten) := by
  intro pages
  induction pages with
  | nil => intro page fuel h; exact absurd h (by simp [PageChain])
  | cons p rest ih =>
    intro page fuel h hfuel
    obtain ⟨ds, next⟩ := p
    cases fuel with
    | zero => simp at hfuel
    | succ n =>
      cases rest with
      | nil =>
        simp only [PageChain] at h
        obtain ⟨hans, hnext⟩ := h
        subst hnext
        unfold listAllMergeRequestDiscussion
        rw [hans]
        simp [chainRequests]
      | cons q rest2 =>
        simp only [PageChain] at h
        obtain ⟨hans, hnext, hrest⟩ := h
        have hlen : (q :: rest2).length ≤ n := by
          simp only [List.length_cons] at hfuel ⊢
          omega
        have hreqs := ih next n hrest hlen
        unfold listAllMergeRequestDiscussion
        rw [hans]
        simp only [hnext, if_false]
        rw [hreqs]
        simp [chainRequests]

/-- With enough fuel the listing of a chain that breaks ends with the error of
the failing request. -/
theorem listAll_of_failingChain (cli : Client) (projectID : String) (mergeRequest : Int)
    (perPage : Int) (e : Error) :
    ∀ (pages : List (List Discussion × Int)) (page : Int) (fuel : Nat),
      FailingChain cli projectID mergeRequest perPage page pages e → pages.length < fuel →
      ∃ reqs, listAllMergeRequestDiscussion cli projectID mergeRequest fuel
          { page := page, perPage := perPage } = some (reqs, .error e) := by
  intro pages
  induction pages with
  | nil =>
    intro page fuel h hfuel
    cases fuel with
    | zero => simp at hfuel
    | succ n =>
      simp only [FailingChain] at h
      refine ⟨[Request.listMergeRequestDiscussions projectID mergeRequest
        { page := page, perPage := perPage }], ?_⟩
      unfold listAllMergeRequestDiscussion
      rw [h]
  | cons p rest ih =>
    intro page fuel h hfuel
    obtain ⟨ds, next⟩ := p
    cases fuel with
    | zero => simp at hfuel
    | succ n =>
      simp only [FailingChain] at h
      obtain ⟨hans, hnext, hrest⟩ := h
      have hlen : rest.length < n := by
        simp only [List.length_cons] at hfuel
        omega
      obtain ⟨reqs, hreqs⟩ := ih next n hrest hlen
      refine ⟨Request.listMergeRequestDiscussions projectID mergeRequest
        { page := page, perPage := perPage } :: reqs, ?_⟩
      unfold listAllMergeRequestDiscussion
      rw [hans]
      simp only [hnext, if_false]
      rw [hreqs]

/-! ## The error group -/

theorem Group_foldl_some (f : Nat → Option Error) (e : Error) (sched : List Nat) :
    (sched.foldl (fun eg i => Group.finish eg (f i)) { err := some e : Group }).err
      = some e := by
  induction sched with
  | nil => rfl
  | cons i rest ih =>
    rw [List.foldl_cons]
    have : Group.finish { err := some e } (f i) = { err := some e } := by
      simp [Group.finish]
    rw [this]
    exact ih

theorem Group_foldl_none (f : Nat → Option Error) (sched : List Nat) :
    (sched.foldl (fun eg i => Group.finish eg (f i)) { err := none : Group }).err
      = (sched.filterMap f).head? := by
  induction sched with
  | nil => rfl
  | cons i rest ih =>
    rw [List.foldl_cons]
    cases hr : f i with
    | none =>
      have : Group.finish { err := none } (none : Option Error) = { err := none } := by
        simp [Group.finish]
      rw [this, ih, List.filterMap_cons_none hr]
    | some e =>
      have : Group.finish { err := none } (some e) = { err := some e } := by
        simp [Group.finish]
      rw [this, Group_foldl_some, List.filterMap_cons_some hr, List.head?_cons]

/-- The error `Wait` returns is the first error met in finishing order. -/
theorem Group_Wait_eq (results : List (Option Error)) (sched : List Nat) :
    Group.Wait results sched = (sched.filterMap fun i => results.getD i none).head? :=
  Group_foldl_none (fun i => results.getD i none) sched

theorem head_filterMap_none_iff (f : Nat → Option Error) (sched : List Nat) :
    (sched.filterMap f).head? = none ↔ ∀ i ∈ sched, f i = none := by
  induction sched with
  | nil => simp
  | cons i rest ih =>
    cases hr : f i with
    | none =>
      rw [List.filterMap_cons_none hr, ih]
      constructor
      · intro h j hj
        rcases List.mem_cons.mp hj with rfl | hj
        · exact hr
        · exact h j hj
      · intro h j hj
        exact h j (List.mem_cons_of_mem _ hj)
    | some e =>
      rw [List.filterMap_cons_some hr, List.head?_cons]
      constructor
      · intro h; cases h
      · intro h
        have := h i (List.mem_cons_self _ _)
        rw [hr] at this; cases this

theorem head_filterMap_some_split (f : Nat → Option Error) (e : Error) :
    ∀ (sched : List Nat), (sched.filterMap f).head? = some e →
      ∃ pre i post, sched = pre ++ i :: post ∧ (∀ j ∈ pre, f j = none) ∧ f i = some e := by
  intro sched
  induction sched with
  | nil => intro h; simp at h
  | cons i rest ih =>
    intro h
    cases hr : f i with
    | none =>
      rw [List.filterMap_cons_none hr] at h
      obtain ⟨pre, k, post, hs, hpre, hk⟩ := ih h
      refine ⟨i :: pre, k, post, by rw [hs]; rfl, ?_, hk⟩
      intro j hj
      rcases List.mem_cons.mp hj with rfl | hj
      · exact hr
      · exact hpre j hj
    | some e2 =>
      rw [List.filterMap_cons_some hr, List.head?_cons, Option.some.injEq] at h
      subst h
      exact ⟨[], i, rest, rfl, fun j hj => absurd hj (List.not_mem_nil j), hr⟩

theorem Group_Wait_none_iff (results : List (Option Error)) (sched : List Nat) :
    Group.Wait results sched = none ↔ ∀ i ∈ sched, results.getD i none = none := by
  rw [Group_Wait_eq]
  exact head_filterMap_none_iff _ sched

/-- A returned error belongs to the first goroutine, in finishing order, that
failed. -/
theorem Group_Wait_some_split (results : List (Option Error)) (e : Error) (sched : List Nat)
    (h : Group.Wait results sched = some e) :
    ∃ pre i post, sched = pre ++ i :: post ∧ (∀ j ∈ pre, results.getD j none = none) ∧
      results.getD i none = some e := by
  rw [Group_Wait_eq] at h
  exact head_filterMap_some_split _ e sched h

theorem goroutineResults_getD (cli : Client) (g : MergeRequestDiscussionCommenter)
    (jobs : List CreateMergeRequestDiscussionOptions) (i : Nat) :
    (goroutineResults cli g jobs).getD i none =
      match jobs[i]? with
      | some o => goroutine cli g i o
      | none => none := by
  unfold goroutineResults
  rw [List.getD_eq_getElem?_getD, List.getElem?_map, List.getElem?_enum]
  cases jobs[i]? <;> simp

theorem goroutine_eq_none_iff (cli : Client) (g : MergeRequestDiscussionCommenter) (i : Nat)
    (o : CreateMergeRequestDiscussionOptions) :
    goroutine cli g i o = none ↔ cli.createMergeRequestDiscussion i g.projects g.pr o = none := by
  unfold goroutine
  cases cli.createMergeRequestDiscussion i g.projects g.pr o <;> simp

/-! ## Flush -/

theorem eligible_eq_not_skipped (u : Commentutil) (postedcs : PostedComments) (c : Comment) :
    eligible u postedcs c = !skipped u postedcs c := by
  unfold eligible skipped
  simp only [bne]
  cases c.inDiffFile <;> cases (c.startLine == 0) <;>
    cases postedcs.IsPosted c c.startLine (bodyOf u c) <;> rfl

theorem dispatched_eq (u : Commentutil) (g : MergeRequestDiscussionCommenter)
    (postedcs : PostedComments) (br : Branch) :
    dispatched u g postedcs br
      = (g.postComments.filter (eligible u postedcs)).map (discussionFor u g br) := by
  unfold dispatched
  induction g.postComments with
  | nil => rfl
  | cons c cs ih =>
    rw [List.filterMap_cons, List.filter_cons, eligible_eq_not_skipped]
    cases hs : skipped u postedcs c
    · simp [ih]
    · simp [ih]

/-- The shape of a Flush whose listing and lookups succeed. -/
theorem Flush_dispatch (u : Commentutil) (cli : Client) (sched : List Nat) (fuel : Nat)
    (ctx : Context) (g : MergeRequestDiscussionCommenter) (reqs : List Request)
    (discussions : List Discussion) (mr : MergeRequest) (br : Branch)
    (hlist : listAllMergeRequestDiscussion cli g.projects g.pr fuel { page := 0, perPage := 100 }
      = some (reqs, .ok discussions))
    (hmr : withContext (ctx reqs.length) (cli.getMergeRequest g.projects g.pr) = .ok mr)
    (hbr : cli.getBranch mr.targetProjectID mr.targetBranch = .ok br) :
    Flush u cli sched fuel ctx g = some (g,
      { err := Group.Wait (goroutineResults cli g (dispatched u g (postedOf discussions) br)) sched
        log := reqs ++ [Request.getMergeRequest g.projects g.pr]
          ++ [Request.getBranch mr.targetProjectID mr.targetBranch]
          ++ (dispatched u g (postedOf discussions) br).map
              (Request.createMergeRequestDiscussion g.projects g.pr) }) := by
  unfold Flush createPostedComments
  rw [hlist]
  simp only
  unfold postCommentsForEach
  simp only [hmr, hbr]

theorem Flush_dispatch_created (g : MergeRequestDiscussionCommenter) (cli : Client) (fuel : Nat)
    (reqs : List Request) (r : Except Error (List Discussion)) (mr : MergeRequest)
    (jobs : List CreateMergeRequestDiscussionOptions)
    (hlist : listAllMergeRequestDiscussion cli g.projects g.pr fuel { page := 0, perPage := 100 }
      = some (reqs, r)) :
    createdCalls (reqs ++ [Request.getMergeRequest g.projects g.pr]
          ++ [Request.getBranch mr.targetProjectID mr.targetBranch]
          ++ jobs.map (Request.createMergeRequestDiscussion g.projects g.pr)) = jobs := by
  rw [createdCalls_append, createdCalls_append, createdCalls_append,
    listAll_createdCalls _ _ _ _ _ _ _ hlist, createdCalls_map_create]
  rfl

/-! ## The posted-comment index -/

/-- The guard of `createPostedComments`: what a note must have to be inserted. -/
theorem mem_addNote_iff (acc : PostedComments) (note : Note) (t : String × Int × String) :
    t ∈ addNote acc note ↔ t ∈ acc ∨
      ∃ pos, note.position = some pos ∧ pos.newPath ≠ "" ∧ pos.newLine ≠ 0 ∧ note.body ≠ "" ∧
        t = (pos.newPath, pos.newLine, note.body) := by
  unfold addNote
  cases hp : note.position with
  | none => simp
  | some pos =>
    simp only []
    by_cases hg : pos.newPath = "" ∨ pos.newLine = 0 ∨ note.body = ""
    · rw [if_pos hg]
      constructor
      · intro h; exact Or.inl h
      · rintro (h | ⟨pos2, hpos, h1, h2, h3, -⟩)
        · exact h
        · cases hpos
          rcases hg with hg | hg | hg
          · exact absurd hg h1
          · exact absurd hg h2
          · exact absurd hg h3
    · rw [if_neg hg]
      simp only [not_or] at hg
      unfold PostedComments.AddPostedComment
      rw [List.mem_append, List.mem_singleton]
      constructor
      · rintro (h | h)
        · exact Or.inl h
        · exact Or.inr ⟨pos, rfl, hg.1, hg.2.1, hg.2.2, h⟩
      · rintro (h | ⟨pos2, hpos, -, -, -, h⟩)
        · exact Or.inl h
        · cases hpos; exact Or.inr h

theorem mem_foldl_addNote_iff (notes : List Note) :
    ∀ (acc : PostedComments) (t : String × Int × String),
      t ∈ notes.foldl addNote acc ↔ t ∈ acc ∨
        ∃ note ∈ notes, ∃ pos, note.position = some pos ∧ pos.newPath ≠ "" ∧ pos.newLine ≠ 0 ∧
          note.body ≠ "" ∧ t = (pos.newPath, pos.newLine, note.body) := by
  induction notes with
  | nil => intro acc t; simp
  | cons n ns ih =>
    intro acc t
    rw [List.foldl_cons, ih, mem_addNote_iff]
    constructor
    · rintro ((h | h) | ⟨note, hn, h⟩)
      · exact Or.inl h
      · exact Or.inr ⟨n, List.mem_cons_self _ _, h⟩
      · exact Or.inr ⟨note, List.mem_cons_of_mem _ hn, h⟩
    · rintro (h | ⟨note, hn, h⟩)
      · exact Or.inl (Or.inl h)
      · rcases List.mem_cons.mp hn with rfl | hn
        · exact Or.inl (Or.inr h)
        · exact Or.inr ⟨note, hn, h⟩

theorem mem_foldl_discussions_iff (discussions : List Discussion) :
    ∀ (acc : PostedComments) (t : String × Int × String),
      t ∈ discussions.foldl (fun postedcs d => d.notes.foldl addNote postedcs) acc ↔ t ∈ acc ∨
        ∃ d ∈ discussions, ∃ note ∈ d.notes, ∃ pos, note.position = some pos ∧
          pos.newPath ≠ "" ∧ pos.newLine ≠ 0 ∧ note.body ≠ "" ∧
          t = (pos.newPath, pos.newLine, note.body) := by
  induction discussions with
  | nil => intro acc t; simp
  | cons d ds ih =>
    intro acc t
    rw [List.foldl_cons, ih, mem_foldl_addNote_iff]
    constructor
    · rintro ((h | h) | ⟨d2, hd, h⟩)
      · exact Or.inl h
      · exact Or.inr ⟨d, List.mem_cons_self _ _, h⟩
      · exact Or.inr ⟨d2, List.mem_cons_of_mem _ hd, h⟩
    · rintro (h | ⟨d2, hd, h⟩)
      · exact Or.inl (Or.inl h)
      · rcases List.mem_cons.mp hd with rfl | hd
        · exact Or.inl (Or.inr h)
        · exact Or.inr ⟨d2, hd, h⟩

/-- The index holds exactly the (path, line, body) of the notes that pass the
guard of `createPostedComments`. -/
theorem mem_postedOf_iff (discussions : List Discussion) (t : String × Int × String) :
    t ∈ postedOf discussions ↔
      ∃ d ∈ discussions, ∃ note ∈ d.notes, ∃ pos, note.position = some pos ∧
        pos.newPath ≠ "" ∧ pos.newLine ≠ 0 ∧ note.body ≠ "" ∧
        t = (pos.newPath, pos.newLine, note.body) := by
  unfold postedOf
  rw [mem_foldl_discussions_iff]
  simp

theorem isPosted_iff (p : PostedComments) (c : Comment) (lineNum : Int) (body : String) :
    p.IsPosted c lineNum body = true ↔ (c.path, lineNum, body) ∈ p := by
  unfold PostedComments.IsPosted
  exact decide_eq_true_iff

theorem eligible_iff (u : Commentutil) (p : PostedComments) (c : Comment) :
    eligible u p c = true ↔
      c.inDiffFile = true ∧ c.startLine ≠ 0 ∧ (c.path, c.startLine, bodyOf u c) ∉ p := by
  unfold eligible
  rw [Bool.and_eq_true, Bool.and_eq_true, bne_iff_ne, Bool.not_eq_true', ← Bool.not_eq_true,
    isPosted_iff, and_assoc]

/-! ## Payloads -/

theorem discussionFor_body (u : Commentutil) (g : MergeRequestDiscussionCommenter) (br : Branch)
    (c : Comment) : (discussionFor u g br c).body = bodyOf u c := rfl

theorem discussionFor_target (u : Commentutil) (g : MergeRequestDiscussionCommenter)
    (br : Branch) (c : Comment) : target (discussionFor u g br c) = (c.path, c.startLine) := by
  unfold target discussionFor
  by_cases h : c.oldPath ≠ "" ∧ c.oldLine ≠ 0
  · simp only [if_pos h]
  · simp only [if_neg h]

/-- The shape of a Flush whose merge-request lookup fails. -/
theorem Flush_mr_failed (u : Commentutil) (cli : Client) (sched : List Nat) (fuel : Nat)
    (ctx : Context) (g : MergeRequestDiscussionCommenter) (reqs : List Request)
    (discussions : List Discussion) (e : Error)
    (hlist : listAllMergeRequestDiscussion cli g.projects g.pr fuel { page := 0, perPage := 100 }
      = some (reqs, .ok discussions))
    (hmr : withContext (ctx reqs.length) (cli.getMergeRequest g.projects g.pr) = .error e) :
    Flush u cli sched fuel ctx g = some (g,
      { err := some (.wrapf "failed to get merge request" e)
        log := reqs ++ [Request.getMergeRequest g.projects g.pr] }) := by
  unfold Flush createPostedComments
  rw [hlist]
  simp only
  unfold postCommentsForEach
  simp only [hmr]

/-- The shape of a Flush whose target-branch lookup fails. -/
theorem Flush_branch_failed (u : Commentutil) (cli : Client) (sched : List Nat) (fuel : Nat)
    (ctx : Context) (g : MergeRequestDiscussionCommenter) (reqs : List Request)
    (discussions : List Discussion) (mr : MergeRequest) (e : Error)
    (hlist : listAllMergeRequestDiscussion cli g.projects g.pr fuel { page := 0, perPage := 100 }
      = some (reqs, .ok discussions))
    (hmr : withContext (ctx reqs.length) (cli.getMergeRequest g.projects g.pr) = .ok mr)
    (hbr : cli.getBranch mr.targetProjectID mr.targetBranch = .error e) :
    Flush u cli sched fuel ctx g = some (g,
      { err := some e
        log := reqs ++ [Request.getMergeRequest g.projects g.pr]
          ++ [Request.getBranch mr.targetProjectID mr.targetBranch] }) := by
  unfold Flush createPostedComments
  rw [hlist]
  simp only
  unfold postCommentsForEach
  simp only [hmr, hbr]

/-- Whatever the lookups answer, a Flush whose listing succeeds ends, and its
creation calls are those of the eligible buffered comments, or none at all when
a lookup failed. -/
theorem Flush_listed (u : Commentutil) (cli : Client) (sched : List Nat) (fuel : Nat)
    (ctx : Context) (g : MergeRequestDiscussionCommenter) (reqs : List Request)
    (discussions : List Discussion)
    (hlist : listAllMergeRequestDiscussion cli g.projects g.pr fuel { page := 0, perPage := 100 }
      = some (reqs, .ok discussions)) :
    ∃ out, Flush u cli sched fuel ctx g = some (g, out) ∧
      (createdCalls out.log = [] ∨
        ∃ br, createdCalls out.log
          = (g.postComments.filter (eligible u (postedOf discussions))).map
              (discussionFor u g br)) := by
  cases hmr : withContext (ctx reqs.length) (cli.getMergeRequest g.projects g.pr) with
  | error e =>
    refine ⟨_, Flush_mr_failed u cli sched fuel ctx g reqs discussions e hlist hmr, Or.inl ?_⟩
    rw [createdCalls_append, listAll_createdCalls _ _ _ _ _ _ _ hlist]
    rfl
  | ok mr =>
    cases hbr : cli.getBranch mr.targetProjectID mr.targetBranch with
    | error e =>
      refine ⟨_, Flush_branch_failed u cli sched fuel ctx g reqs discussions mr e hlist hmr hbr,
        Or.inl ?_⟩
      rw [createdCalls_append, createdCalls_append, listAll_createdCalls _ _ _ _ _ _ _ hlist]
      rfl
    | ok br =>
      refine ⟨_, Flush_dispatch u cli sched fuel ctx g reqs discussions mr br hlist hmr hbr,
        Or.inr ⟨br, ?_⟩⟩
      rw [Flush_dispatch_created g cli fuel reqs _ mr _ hlist, dispatched_eq]

/-! ## The claims -/

/-- C1: when the listing and the merge-request and target-branch lookups
succeed, Flush ends and its creation calls are, in buffer order, exactly one
call per buffered comment that is in the diff, has a non-zero start line and is
not posted at its (path, line, body), and no other call; their number is the
number of eligible buffered comments. -/
theorem C1_flush_creates_exactly_the_eligible (u : Commentutil) (cli : Client)
    (sched : List Nat) (fuel : Nat) (ctx : Context) (g : MergeRequestDiscussionCommenter)
    (reqs : List Request) (discussions : List Discussion) (mr : MergeRequest) (br : Branch)
    (hlist : listAllMergeRequestDiscussion cli g.projects g.pr fuel { page := 0, perPage := 100 }
      = some (reqs, .ok discussions))
    (hmr : withContext (ctx reqs.length) (cli.getMergeRequest g.projects g.pr) = .ok mr)
    (hbr : cli.getBranch mr.targetProjectID mr.targetBranch = .ok br) :
    ∃ out, Flush u cli sched fuel ctx g = some (g, out) ∧
      createdCalls out.log
        = (g.postComments.filter fun c =>
            c.inDiffFile && c.startLine != 0 &&
              !(postedOf discussions).IsPosted c c.startLine (bodyOf u c)).map
            (discussionFor u g br) ∧
      (createdCalls out.log).length
        = g.postComments.countP fun c =>
            c.inDiffFile && c.startLine != 0 &&
              !(postedOf discussions).IsPosted c c.startLine (bodyOf u c) := by
  refine ⟨_, Flush_dispatch u cli sched fuel ctx g reqs discussions mr br hlist hmr hbr, ?_, ?_⟩
  · rw [Flush_dispatch_created g cli fuel reqs _ mr _ hlist, dispatched_eq]
    rfl
  · rw [Flush_dispatch_created g cli fuel reqs _ mr _ hlist, dispatched_eq, List.length_map,
      List.countP_eq_length_filter]
    rfl

/-- The test scenario of C1: seven buffered comments, two of them already on
the server, two outside the diff or without a line: three creation calls. -/
theorem C1_flush_creates_exactly_the_eligible_witness :
    listAllMergeRequestDiscussion testClient postedCommenter.projects postedCommenter.pr 2
        { page := 0, perPage := 100 }
      = some ([Request.listMergeRequestDiscussions "o/r" 14 { page := 0, perPage := 100 },
               Request.listMergeRequestDiscussions "o/r" 14 { page := 2, perPage := 100 }],
          .ok (testPage1 ++ testPage2)) ∧
    postedCommenter.postComments.length = 7 ∧
    ∃ out, Flush scenarioUtil testClient [0, 1, 2] 2 background postedCommenter
        = some (postedCommenter, out) ∧
      (createdCalls out.log).length = 3 := by
  have hlist : listAllMergeRequestDiscussion testClient postedCommenter.projects
      postedCommenter.pr 2 { page := 0, perPage := 100 }
      = some ([Request.listMergeRequestDiscussions "o/r" 14 { page := 0, perPage := 100 },
               Request.listMergeRequestDiscussions "o/r" 14 { page := 2, perPage := 100 }],
          .ok (testPage1 ++ testPage2)) := by rfl
  refine ⟨hlist, by decide, ?_⟩
  obtain ⟨out, hout, -, hcount⟩ :=
    C1_flush_creates_exactly_the_eligible scenarioUtil testClient [0, 1, 2] 2 background
      postedCommenter _ _ { targetProjectID := 14, targetBranch := "test-branch" }
      { commitID := "xxx" } hlist rfl rfl
  refine ⟨out, hout, ?_⟩
  rw [hcount]
  decide

/-- C2, as amended: for every finite chain of listing pages (each page but the
last reports a non-zero next page, the last reports 0),
`listAllMergeRequestDiscussion`, given at least as much fuel as there are pages,
ends: it requests the pages one after the other and returns their discussions
concatenated in page order. So in a Flush, which lists from the unset page with
100 entries per page, every note of every page of the chain that has a position,
a non-empty path, a non-zero line and a non-empty body is in the posted-comment
index, and no creation call carries its (path, line, body). -/
theorem C2_listing_follows_the_whole_chain (cli : Client) (projectID : String)
    (mergeRequest : Int) (opts : ListMergeRequestDiscussionsOptions)
    (pages : List (List Discussion × Int)) (fuel : Nat)
    (hchain : PageChain cli projectID mergeRequest opts.perPage opts.page pages)
    (hfuel : pages.length ≤ fuel) :
    listAllMergeRequestDiscussion cli projectID mergeRequest fuel opts
      = some (chainRequests projectID mergeRequest opts.perPage opts.page pages,
          .ok (pages.map Prod.fst).flatten) ∧
    ∀ (u : Commentutil) (sched : List Nat) (ctx : Context) (g : MergeRequestDiscussionCommenter),
      g.projects = projectID → g.pr = mergeRequest → opts = { page := 0, perPage := 100 } →
      createPostedComments g cli fuel
        = some (chainRequests projectID mergeRequest opts.perPage opts.page pages,
            .ok (postedOf (pages.map Prod.fst).flatten)) ∧
      ∃ out, Flush u cli sched fuel ctx g = some (g, out) ∧
        ∀ page ∈ pages, ∀ d ∈ page.1, ∀ note ∈ d.notes, ∀ pos, note.position = some pos →
          pos.newPath ≠ "" → pos.newLine ≠ 0 → note.body ≠ "" →
          (pos.newPath, pos.newLine, note.body) ∈ postedOf (pages.map Prod.fst).flatten ∧
          ∀ o ∈ createdCalls out.log,
            (o.position.newPath, o.position.newLine, o.body)
              ≠ (pos.newPath, pos.newLine, note.body) := by
  have hall := listAll_of_chain cli projectID mergeRequest opts.perPage pages opts.page fuel
    hchain hfuel
  refine ⟨hall, ?_⟩
  intro u sched ctx g hproj hpr hopts
  subst hproj hpr hopts
  have hcreate : createPostedComments g cli fuel
      = some (chainRequests g.projects g.pr 100 0 pages,
          .ok (postedOf (pages.map Prod.fst).flatten)) := by
    unfold createPostedComments
    rw [hall]
  refine ⟨hcreate, ?_⟩
  obtain ⟨out, hout, hcalls⟩ := Flush_listed u cli sched fuel ctx g _ _ hall
  refine ⟨out, hout, ?_⟩
  intro page hpage d hd note hnote pos hpos h1 h2 h3
  have hmem : (pos.newPath, pos.newLine, note.body) ∈ postedOf (pages.map Prod.fst).flatten := by
    rw [mem_postedOf_iff]
    refine ⟨d, ?_, note, hnote, pos, hpos, h1, h2, h3, rfl⟩
    rw [List.mem_flatten]
    exact ⟨page.1, List.mem_map_of_mem _ hpage, hd⟩
  refine ⟨hmem, ?_⟩
  intro o ho heq
  rcases hcalls with hnil | ⟨br, hbr⟩
  · rw [hnil] at ho
    exact List.not_mem_nil _ ho
  · rw [hbr, List.mem_map] at ho
    obtain ⟨c, hc, rfl⟩ := ho
    have helig := (eligible_iff u _ c).mp (List.mem_filter.mp hc).2
    apply helig.2.2
    have ht := discussionFor_target u g br c
    unfold target at ht
    rw [Prod.mk.injEq] at ht heq
    rw [discussionFor_body, Prod.mk.injEq] at heq
    rw [← ht.1, ← ht.2, heq.1, heq.2.1, heq.2.2]
    exact hmem

/-- The test scenario of C2 as amended: the duplicate of `alreadyCommented2` is
on the second page only; the listing returns both pages and no creation call is
made for it. -/
theorem C2_listing_follows_the_whole_chain_witness :
    PageChain testClient "o/r" 14 100 0 [(testPage1, 2), (testPage2, 0)] ∧
    listAllMergeRequestDiscussion testClient "o/r" 14 2 { page := 0, perPage := 100 }
      = some ([Request.listMergeRequestDiscussions "o/r" 14 { page := 0, perPage := 100 },
               Request.listMergeRequestDiscussions "o/r" 14 { page := 2, perPage := 100 }],
          .ok (testPage1 ++ testPage2)) ∧
    ∃ out, Flush scenarioUtil testClient [0, 1, 2] 2 background postedCommenter
        = some (postedCommenter, out) ∧
      ∀ o ∈ createdCalls out.log,
        (o.position.newPath, o.position.newLine, o.body)
          ≠ ("another/file.go", 14, "already commented 2") := by
  have hchain : PageChain testClient "o/r" 14 100 0 [(testPage1, 2), (testPage2, 0)] :=
    ⟨rfl, by decide, rfl, rfl⟩
  have h := C2_listing_follows_the_whole_chain testClient "o/r" 14 { page := 0, perPage := 100 }
    [(testPage1, 2), (testPage2, 0)] 2 hchain (by decide)
  refine ⟨hchain, ?_, ?_⟩
  · rw [h.1]; rfl
  · obtain ⟨out, hout, hno⟩ := (h.2 scenarioUtil [0, 1, 2] background postedCommenter rfl rfl rfl).2
    refine ⟨out, hout, ?_⟩
    exact (hno (testPage2, 0) (by simp) _ (List.mem_singleton.mpr rfl)
      { body := bodyOf scenarioUtil alreadyCommented2
        position := some (notePos "another/file.go" 14) }
      (List.mem_singleton.mpr rfl) (notePos "another/file.go" 14) rfl (by decide) (by decide)
      (by decide)).2

/-- C2 fails as stated: the buffer holds one in-diff comment without a path, and
the second and last page of the listing holds a note with the path, line and
body of that comment. The listing returns both pages, but a note without a path
is not inserted in the posted-comment index, and Flush creates the comment
again. -/
theorem C2_counterexample :
    PageChain pathlessSecondPage "o/r" 14 100 0 [(testPage1, 2), (pathlessPage, 0)] ∧
    listAllMergeRequestDiscussion pathlessSecondPage "o/r" 14 2 { page := 0, perPage := 100 }
      = some ([Request.listMergeRequestDiscussions "o/r" 14 { page := 0, perPage := 100 },
               Request.listMergeRequestDiscussions "o/r" 14 { page := 2, perPage := 100 }],
          .ok (testPage1 ++ pathlessPage)) ∧
    pathlessCommenter.postComments = [mkComment "" 5 true "no path"] ∧
    bodyOf scenarioUtil (mkComment "" 5 true "no path") = "no path" ∧
    (("", 5, "no path") : String × Int × String) ∉ postedOf (testPage1 ++ pathlessPage) ∧
    (Flush scenarioUtil pathlessSecondPage [0] 2 background pathlessCommenter).map
        (fun r => (r.2.err, createdCalls r.2.log))
      = some (none, [pathlessCall]) := by
  refine ⟨⟨rfl, by decide, rfl, rfl⟩, by rfl, by decide, by decide, by decide, by decide⟩

/-- A Flush that returned nil after a successful listing has issued the creation
calls of all its eligible comments. -/
theorem Flush_nil_created (u : Commentutil) (cli : Client) (sched : List Nat) (fuel : Nat)
    (ctx : Context) (g g1 : MergeRequestDiscussionCommenter) (reqs : List Request)
    (discussions : List Discussion) (out : Outcome)
    (hlist : listAllMergeRequestDiscussion cli g.projects g.pr fuel { page := 0, perPage := 100 }
      = some (reqs, .ok discussions))
    (h : Flush u cli sched fuel ctx g = some (g1, out)) (hok : out.err = none) :
    ∃ br, createdCalls out.log
      = (g.postComments.filter (eligible u (postedOf discussions))).map (discussionFor u g br) := by
  cases hmr : withContext (ctx reqs.length) (cli.getMergeRequest g.projects g.pr) with
  | error e =>
    rw [Flush_mr_failed u cli sched fuel ctx g reqs discussions e hlist hmr] at h
    simp only [Option.some.injEq, Prod.mk.injEq] at h
    rw [← h.2] at hok
    cases hok
  | ok mr =>
    cases hbr : cli.getBranch mr.targetProjectID mr.targetBranch with
    | error e =>
      rw [Flush_branch_failed u cli sched fuel ctx g reqs discussions mr e hlist hmr hbr] at h
      simp only [Option.some.injEq, Prod.mk.injEq] at h
      rw [← h.2] at hok
      cases hok
    | ok br =>
      rw [Flush_dispatch u cli sched fuel ctx g reqs discussions mr br hlist hmr hbr] at h
      simp only [Option.some.injEq, Prod.mk.injEq] at h
      refine ⟨br, ?_⟩
      rw [← h.2, Flush_dispatch_created g cli fuel reqs _ mr _ hlist, dispatched_eq]

/-- C3, as amended: take a buffer in which every in-diff comment with a non-zero
line has a non-empty path and a non-empty body. If a Flush whose listing
succeeded returned nil, and the listing the next Flush of the same commenter
sees still holds every discussion of the first listing and holds, for each
creation call of the first Flush, a note with the call's path, line and body,
then the next Flush ends and issues no creation call. -/
theorem C3_second_flush_creates_nothing (u : Commentutil) (cli1 cli2 : Client)
    (sched1 sched2 : List Nat) (fuel1 fuel2 : Nat) (ctx1 ctx2 : Context)
    (g : MergeRequestDiscussionCommenter) (reqs1 reqs2 : List Request)
    (ds1 ds2 : List Discussion) (out1 : Outcome)
    (hne : ∀ c ∈ g.postComments, c.inDiffFile = true → c.startLine ≠ 0 →
      c.path ≠ "" ∧ bodyOf u c ≠ "")
    (hlist1 : listAllMergeRequestDiscussion cli1 g.projects g.pr fuel1
      { page := 0, perPage := 100 } = some (reqs1, .ok ds1))
    (h1 : Flush u cli1 sched1 fuel1 ctx1 g = some (g, out1))
    (hok : out1.err = none)
    (hlist2 : listAllMergeRequestDiscussion cli2 g.projects g.pr fuel2
      { page := 0, perPage := 100 } = some (reqs2, .ok ds2))
    (hold : ∀ d ∈ ds1, d ∈ ds2)
    (hnew : ∀ o ∈ createdCalls out1.log, ∃ d ∈ ds2, ∃ note ∈ d.notes, ∃ pos,
      note.position = some pos ∧ pos.newPath = o.position.newPath ∧
        pos.newLine = o.position.newLine ∧ note.body = o.body) :
    ∃ out2, Flush u cli2 sched2 fuel2 ctx2 g = some (g, out2) ∧ createdCalls out2.log = [] := by
  obtain ⟨br1, hcalls1⟩ := Flush_nil_created u cli1 sched1 fuel1 ctx1 g g reqs1 ds1 out1 hlist1 h1 hok
  obtain ⟨out2, hout2, hcalls2⟩ := Flush_listed u cli2 sched2 fuel2 ctx2 g reqs2 ds2 hlist2
  refine ⟨out2, hout2, ?_⟩
  rcases hcalls2 with hnil | ⟨br2, hbr2⟩
  · exact hnil
  · rw [hbr2, List.map_eq_nil_iff, List.filter_eq_nil_iff]
    intro c hc helig
    obtain ⟨hin, hline, hnot⟩ := (eligible_iff u _ c).mp helig
    obtain ⟨hpath, hbody⟩ := hne c hc hin hline
    apply hnot
    by_cases h1e : eligible u (postedOf ds1) c = true
    · have hmem : discussionFor u g br1 c ∈ createdCalls out1.log := by
        rw [hcalls1]
        exact List.mem_map_of_mem _ (List.mem_filter.mpr ⟨hc, h1e⟩)
      obtain ⟨d, hd, note, hnote, pos, hpos, hp, hl, hb⟩ := hnew _ hmem
      have ht := discussionFor_target u g br1 c
      unfold target at ht
      rw [Prod.mk.injEq] at ht
      rw [ht.1] at hp
      rw [ht.2] at hl
      rw [discussionFor_body] at hb
      rw [mem_postedOf_iff]
      refine ⟨d, hd, note, hnote, pos, hpos, ?_, ?_, ?_, ?_⟩
      · rw [hp]; exact hpath
      · rw [hl]; exact hline
      · rw [hb]; exact hbody
      · rw [hp, hl, hb]
    · have h1n : (c.path, c.startLine, bodyOf u c) ∈ postedOf ds1 := by
        by_contra hcon
        exact h1e ((eligible_iff u _ c).mpr ⟨hin, hline, hcon⟩)
      rw [mem_postedOf_iff] at h1n ⊢
      obtain ⟨d, hd, rest⟩ := h1n
      exact ⟨d, hold d hd, rest⟩

/-- An instance of C3 as amended: the buffer holds `newComment1`; the first
Flush, against an empty listing, creates it; the second, against the listing
that holds its note, creates nothing. -/
theorem C3_second_flush_creates_nothing_witness :
    Flush scenarioUtil (singlePageClient []) [0] 1 background oneCommentCommenter
      = some (oneCommentCommenter,
          { err := none
            log := [Request.listMergeRequestDiscussions "o/r" 14 { page := 0, perPage := 100 },
              Request.getMergeRequest "o/r" 14, Request.getBranch 14 "test-branch",
              Request.createMergeRequestDiscussion "o/r" 14
                (discussionFor scenarioUtil oneCommentCommenter { commitID := "xxx" }
                  newComment1)] }) ∧
    ∃ out2, Flush scenarioUtil
        (singlePageClient (discussionsOfCalls
          [discussionFor scenarioUtil oneCommentCommenter { commitID := "xxx" } newComment1]))
        [0] 1 background oneCommentCommenter = some (oneCommentCommenter, out2) ∧
      createdCalls out2.log = [] :=
  ⟨by decide,
    C3_second_flush_creates_nothing scenarioUtil (singlePageClient [])
      (singlePageClient (discussionsOfCalls
        [discussionFor scenarioUtil oneCommentCommenter { commitID := "xxx" } newComment1]))
      [0] [0] 1 1 background background oneCommentCommenter
      [Request.listMergeRequestDiscussions "o/r" 14 { page := 0, perPage := 100 }]
      [Request.listMergeRequestDiscussions "o/r" 14 { page := 0, perPage := 100 }]
      []
      (discussionsOfCalls
        [discussionFor scenarioUtil oneCommentCommenter { commitID := "xxx" } newComment1])
      { err := none
        log := [Request.listMergeRequestDiscussions "o/r" 14 { page := 0, perPage := 100 },
          Request.getMergeRequest "o/r" 14, Request.getBranch 14 "test-branch",
          Request.createMergeRequestDiscussion "o/r" 14
            (discussionFor scenarioUtil oneCommentCommenter { commitID := "xxx" }
              newComment1)] }
      (by decide) rfl (by decide) rfl rfl (by decide) (by decide)⟩

/-- C3 fails as stated: the buffer holds one in-diff comment without a path.
The first Flush, against an empty listing, returns nil after one successful
creation call; the second Flush sees that listing plus the note of the call, and
issues the same creation call again, because a note without a path is not
inserted in the posted-comment index. -/
theorem C3_counterexample :
    (Flush scenarioUtil (singlePageClient []) [0] 1 background pathlessCommenter).map
        (fun r => (r.1, r.2.err, createdCalls r.2.log))
      = some (pathlessCommenter, none, [pathlessCall]) ∧
    (Flush scenarioUtil (singlePageClient ([] ++ discussionsOfCalls [pathlessCall])) [0] 1
        background pathlessCommenter).map (fun r => createdCalls r.2.log)
      = some [pathlessCall] := by
  constructor <;> decide

/-- C4: when the listing and the lookups succeed, the creation call Flush issues
for each eligible buffered comment carries the comment's path as NewPath, its
start line as NewLine, the commenter's sha as HeadSHA, the commit id of the
target branch as BaseSHA and StartSHA, "text" as PositionType, and as body the
very string that was looked up in the posted-comment index; OldPath and OldLine
are the comment's when its OldPath is non-empty and its OldLine non-zero, and
are empty and zero otherwise. -/
theorem C4_creation_call_payload (u : Commentutil) (cli : Client)
    (sched : List Nat) (fuel : Nat) (ctx : Context) (g : MergeRequestDiscussionCommenter)
    (reqs : List Request) (discussions : List Discussion) (mr : MergeRequest) (br : Branch)
    (hlist : listAllMergeRequestDiscussion cli g.projects g.pr fuel { page := 0, perPage := 100 }
      = some (reqs, .ok discussions))
    (hmr : withContext (ctx reqs.length) (cli.getMergeRequest g.projects g.pr) = .ok mr)
    (hbr : cli.getBranch mr.targetProjectID mr.targetBranch = .ok br) :
    ∃ out, Flush u cli sched fuel ctx g = some (g, out) ∧
      createdCalls out.log
        = (g.postComments.filter fun c =>
            c.inDiffFile && c.startLine != 0 &&
              !(postedOf discussions).IsPosted c c.startLine (bodyOf u c)).map
            fun c =>
              { body := bodyOf u c
                position :=
                  { newPath := c.path
                    newLine := c.startLine
                    headSHA := g.sha
                    baseSHA := br.commitID
                    startSHA := br.commitID
                    positionType := "text"
                    oldPath := if c.oldPath ≠ "" ∧ c.oldLine ≠ 0 then c.oldPath else ""
                    oldLine := if c.oldPath ≠ "" ∧ c.oldLine ≠ 0 then c.oldLine else 0 } } := by
  refine ⟨_, Flush_dispatch u cli sched fuel ctx g reqs discussions mr br hlist hmr hbr, ?_⟩
  rw [Flush_dispatch_created g cli fuel reqs _ mr _ hlist, dispatched_eq]
  apply congrArg₂ List.map _ rfl
  funext c
  unfold discussionFor
  by_cases h : c.oldPath ≠ "" ∧ c.oldLine ≠ 0
  · simp only [if_pos h]
  · simp only [if_neg h]

/-- The test scenario of C4: the three payloads the test server expects. -/
theorem C4_creation_call_payload_witness :
    ∃ out, Flush scenarioUtil testClient [0, 1, 2] 2 background postedCommenter
        = some (postedCommenter, out) ∧
      createdCalls out.log =
        [{ body := "new comment"
           position :=
            { baseSHA := "xxx", startSHA := "xxx", headSHA := "sha", positionType := "text",
              newPath := "file.go", newLine := 14, oldPath := "", oldLine := 0 } },
         { body := "new comment 2"
           position :=
            { baseSHA := "xxx", startSHA := "xxx", headSHA := "sha", positionType := "text",
              newPath := "file2.go", newLine := 15, oldPath := "", oldLine := 0 } },
         { body := "new comment 3"
           position :=
            { baseSHA := "xxx", startSHA := "xxx", headSHA := "sha", positionType := "text",
              newPath := "new_file.go", newLine := 14, oldPath := "old_file.go",
              oldLine := 7 } }] := by
  obtain ⟨out, hout, hcalls⟩ :=
    C4_creation_call_payload scenarioUtil testClient [0, 1, 2] 2 background postedCommenter
      [Request.listMergeRequestDiscussions "o/r" 14 { page := 0, perPage := 100 },
        Request.listMergeRequestDiscussions "o/r" 14 { page := 2, perPage := 100 }]
      (testPage1 ++ testPage2) { targetProjectID := 14, targetBranch := "test-branch" }
      { commitID := "xxx" } (by rfl) rfl rfl
  refine ⟨out, hout, ?_⟩
  rw [hcalls]
  decide

/-- In a schedule in which every goroutine finishes, `Wait` returns an error iff
some creation call failed. -/
theorem Wait_goroutines_ne_none_iff (cli : Client) (g : MergeRequestDiscussionCommenter)
    (jobs : List CreateMergeRequestDiscussionOptions) (sched : List Nat)
    (hsched : sched.Perm (List.range jobs.length)) :
    Group.Wait (goroutineResults cli g jobs) sched ≠ none ↔
      ∃ i o, jobs[i]? = some o ∧ cli.createMergeRequestDiscussion i g.projects g.pr o ≠ none := by
  rw [Ne, Group_Wait_none_iff]
  constructor
  · intro h
    by_contra hcon
    apply h
    intro i _
    rw [goroutineResults_getD]
    cases hj : jobs[i]? with
    | none => rfl
    | some o =>
      simp only []
      rw [goroutine_eq_none_iff]
      by_contra hne
      exact hcon ⟨i, o, hj, hne⟩
  · rintro ⟨i, o, hj, hne⟩ h
    have hlt : i < jobs.length := by
      rcases Nat.lt_or_ge i jobs.length with hlt | hge
      · exact hlt
      · rw [List.getElem?_eq_none hge] at hj; cases hj
    have hi : i ∈ sched := hsched.mem_iff.mpr (List.mem_range.mpr hlt)
    have := h i hi
    rw [goroutineResults_getD, hj] at this
    simp only [] at this
    rw [goroutine_eq_none_iff] at this
    exact hne this

/-- When exactly one creation call fails, `Wait` returns the error of its
goroutine. -/
theorem Wait_goroutines_unique (cli : Client) (g : MergeRequestDiscussionCommenter)
    (jobs : List CreateMergeRequestDiscussionOptions) (sched : List Nat)
    (hsched : sched.Perm (List.range jobs.length)) (i : Nat)
    (o : CreateMergeRequestDiscussionOptions) (e : Error) (hj : jobs[i]? = some o)
    (he : cli.createMergeRequestDiscussion i g.projects g.pr o = some e)
    (hothers : ∀ j o2, j ≠ i → jobs[j]? = some o2 →
      cli.createMergeRequestDiscussion j g.projects g.pr o2 = none) :
    Group.Wait (goroutineResults cli g jobs) sched
      = some (.wrapf "failed to create merge request discussion" e) := by
  have hne : Group.Wait (goroutineResults cli g jobs) sched ≠ none :=
    (Wait_goroutines_ne_none_iff cli g jobs sched hsched).mpr ⟨i, o, hj, by rw [he]; simp⟩
  cases hw : Group.Wait (goroutineResults cli g jobs) sched with
  | none => exact absurd hw hne
  | some e2 =>
    obtain ⟨pre, k, post, -, -, hk⟩ := Group_Wait_some_split _ e2 sched hw
    rw [goroutineResults_getD] at hk
    cases hjk : jobs[k]? with
    | none => rw [hjk] at hk; cases hk
    | some o2 =>
      rw [hjk] at hk
      simp only [] at hk
      by_cases hki : k = i
      · subst hki
        rw [hj] at hjk
        cases hjk
        unfold goroutine at hk
        rw [he] at hk
        simp only [Option.some.injEq] at hk
        rw [hk]
      · have := hothers k o2 hki hjk
        rw [← goroutine_eq_none_iff] at this
        rw [this] at hk
        cases hk

/-- C5: when the listing and the lookups succeed and every goroutine finishes,
then whatever each creation call answers, Flush issues the creation calls of all
eligible comments; it returns a non-nil error iff at least one creation call
failed; and when exactly one call failed, it returns the error of that call (as
its goroutine wraps it). -/
theorem C5_some_creations_fail (u : Commentutil) (cli : Client)
    (sched : List Nat) (fuel : Nat) (ctx : Context) (g : MergeRequestDiscussionCommenter)
    (reqs : List Request) (discussions : List Discussion) (mr : MergeRequest) (br : Branch)
    (hlist : listAllMergeRequestDiscussion cli g.projects g.pr fuel { page := 0, perPage := 100 }
      = some (reqs, .ok discussions))
    (hmr : withContext (ctx reqs.length) (cli.getMergeRequest g.projects g.pr) = .ok mr)
    (hbr : cli.getBranch mr.targetProjectID mr.targetBranch = .ok br)
    (hsched : sched.Perm (List.range
      (g.postComments.countP (eligible u (postedOf discussions))))) :
    ∃ out, Flush u cli sched fuel ctx g = some (g, out) ∧
      createdCalls out.log
        = (g.postComments.filter (eligible u (postedOf discussions))).map
            (discussionFor u g br) ∧
      (out.err ≠ none ↔ ∃ i o, (createdCalls out.log)[i]? = some o ∧
        cli.createMergeRequestDiscussion i g.projects g.pr o ≠ none) ∧
      ∀ i o e, (createdCalls out.log)[i]? = some o →
        cli.createMergeRequestDiscussion i g.projects g.pr o = some e →
        (∀ j o2, j ≠ i → (createdCalls out.log)[j]? = some o2 →
          cli.createMergeRequestDiscussion j g.projects g.pr o2 = none) →
        out.err = some (.wrapf "failed to create merge request discussion" e) := by
  have hcalls := Flush_dispatch_created g cli fuel reqs _ mr
    (dispatched u g (postedOf discussions) br) hlist
  have hlen : (dispatched u g (postedOf discussions) br).length
      = g.postComments.countP (eligible u (postedOf discussions)) := by
    rw [dispatched_eq, List.length_map, List.countP_eq_length_filter]
  rw [← hlen] at hsched
  refine ⟨_, Flush_dispatch u cli sched fuel ctx g reqs discussions mr br hlist hmr hbr, ?_, ?_, ?_⟩
  · rw [hcalls, dispatched_eq]
  · rw [hcalls]
    exact Wait_goroutines_ne_none_iff cli g _ sched hsched
  · rw [hcalls]
    intro i o e hj he hothers
    exact Wait_goroutines_unique cli g _ sched hsched i o e hj he hothers

/-- The scenario of C5: one of the three creation calls of the test fails;
all three calls are issued and Flush returns the error of the failed one. -/
theorem C5_some_creations_fail_witness :
    List.Perm [2, 0, 1] (List.range
      (postedCommenter.postComments.countP
        (eligible scenarioUtil (postedOf (testPage1 ++ testPage2))))) ∧
    ∃ out, Flush scenarioUtil (failingClient secondFails) [2, 0, 1] 2 background postedCommenter
        = some (postedCommenter, out) ∧
      (createdCalls out.log).length = 3 ∧
      out.err = some (.wrapf "failed to create merge request discussion"
        (.api "500 Internal Server Error")) := by
  have hperm : List.Perm [2, 0, 1] (List.range
      (postedCommenter.postComments.countP
        (eligible scenarioUtil (postedOf (testPage1 ++ testPage2))))) := by decide
  refine ⟨hperm, ?_⟩
  obtain ⟨out, hout, hcalls, -, hone⟩ :=
    C5_some_creations_fail scenarioUtil (failingClient secondFails) [2, 0, 1] 2 background
      postedCommenter
      [Request.listMergeRequestDiscussions "o/r" 14 { page := 0, perPage := 100 },
        Request.listMergeRequestDiscussions "o/r" 14 { page := 2, perPage := 100 }]
      (testPage1 ++ testPage2) { targetProjectID := 14, targetBranch := "test-branch" }
      { commitID := "xxx" } (by rfl) rfl rfl hperm
  refine ⟨out, hout, by rw [hcalls]; decide, ?_⟩
  refine hone 1 (discussionFor scenarioUtil postedCommenter { commitID := "xxx" } newComment2)
    _ (by rw [hcalls]; decide) rfl ?_
  intro j o2 hj _
  show secondFails j = none
  unfold secondFails
  rw [if_neg hj]

/-- C6, as amended: when the listing and the lookups succeed, every goroutine
finishes and at least one creation call fails (so also when two or more do),
the error Flush returns is the error of a single failed creation call, wrapped
by its goroutine: the failed call whose goroutine finished first. No other
creation error is combined into it. -/
theorem C6_first_error_only (u : Commentutil) (cli : Client)
    (sched : List Nat) (fuel : Nat) (ctx : Context) (g : MergeRequestDiscussionCommenter)
    (reqs : List Request) (discussions : List Discussion) (mr : MergeRequest) (br : Branch)
    (hlist : listAllMergeRequestDiscussion cli g.projects g.pr fuel { page := 0, perPage := 100 }
      = some (reqs, .ok discussions))
    (hmr : withContext (ctx reqs.length) (cli.getMergeRequest g.projects g.pr) = .ok mr)
    (hbr : cli.getBranch mr.targetProjectID mr.targetBranch = .ok br)
    (hsched : sched.Perm (List.range
      (g.postComments.countP (eligible u (postedOf discussions)))))
    (hfail : ∃ i o, (dispatched u g (postedOf discussions) br)[i]? = some o ∧
      cli.createMergeRequestDiscussion i g.projects g.pr o ≠ none) :
    ∃ out, Flush u cli sched fuel ctx g = some (g, out) ∧
      createdCalls out.log = dispatched u g (postedOf discussions) br ∧
      ∃ pre i post o e, sched = pre ++ i :: post ∧
        (createdCalls out.log)[i]? = some o ∧
        cli.createMergeRequestDiscussion i g.projects g.pr o = some e ∧
        (∀ j ∈ pre, ∀ o2, (createdCalls out.log)[j]? = some o2 →
          cli.createMergeRequestDiscussion j g.projects g.pr o2 = none) ∧
        out.err = some (.wrapf "failed to create merge request discussion" e) := by
  have hcalls := Flush_dispatch_created g cli fuel reqs _ mr
    (dispatched u g (postedOf discussions) br) hlist
  have hlen : (dispatched u g (postedOf discussions) br).length
      = g.postComments.countP (eligible u (postedOf discussions)) := by
    rw [dispatched_eq, List.length_map, List.countP_eq_length_filter]
  rw [← hlen] at hsched
  refine ⟨_, Flush_dispatch u cli sched fuel ctx g reqs discussions mr br hlist hmr hbr,
    hcalls, ?_⟩
  rw [hcalls]
  have hne := (Wait_goroutines_ne_none_iff cli g _ sched hsched).mpr hfail
  cases hw : Group.Wait (goroutineResults cli g (dispatched u g (postedOf discussions) br))
      sched with
  | none => exact absurd hw hne
  | some e2 =>
    obtain ⟨pre, k, post, hs, hpre, hk⟩ := Group_Wait_some_split _ e2 sched hw
    rw [goroutineResults_getD] at hk
    cases hjk : (dispatched u g (postedOf discussions) br)[k]? with
    | none => rw [hjk] at hk; cases hk
    | some o =>
      rw [hjk] at hk
      simp only [] at hk
      unfold goroutine at hk
      cases hc : cli.createMergeRequestDiscussion k g.projects g.pr o with
      | none => rw [hc] at hk; cases hk
      | some e =>
        rw [hc] at hk
        simp only [Option.some.injEq] at hk
        refine ⟨pre, k, post, o, e, hs, hjk, hc, ?_, by rw [← hk]⟩
        intro j hj o2 hjo
        have := hpre j hj
        rw [goroutineResults_getD, hjo] at this
        simp only [] at this
        exact (goroutine_eq_none_iff cli g j o2).mp this

/-- An instance of C6 as amended: the first two creation calls of the test
fail, and the goroutine of the second finishes first: Flush returns the error of
the second call alone. -/
theorem C6_first_error_only_witness :
    List.Perm [1, 0, 2] (List.range
      (postedCommenter.postComments.countP
        (eligible scenarioUtil (postedOf (testPage1 ++ testPage2))))) ∧
    ∃ out, Flush scenarioUtil (failingClient firstTwoFail) [1, 0, 2] 2 background
        postedCommenter = some (postedCommenter, out) ∧
      out.err = some (.wrapf "failed to create merge request discussion"
        (.api "403 Forbidden")) := by
  have hperm : List.Perm [1, 0, 2] (List.range
      (postedCommenter.postComments.countP
        (eligible scenarioUtil (postedOf (testPage1 ++ testPage2))))) := by decide
  refine ⟨hperm, ?_⟩
  obtain ⟨out, hout, -, -⟩ :=
    C6_first_error_only scenarioUtil (failingClient firstTwoFail) [1, 0, 2] 2 background
      postedCommenter
      [Request.listMergeRequestDiscussions "o/r" 14 { page := 0, perPage := 100 },
        Request.listMergeRequestDiscussions "o/r" 14 { page := 2, perPage := 100 }]
      (testPage1 ++ testPage2) { targetProjectID := 14, targetBranch := "test-branch" }
      { commitID := "xxx" } (by rfl) rfl rfl hperm
      ⟨0, discussionFor scenarioUtil postedCommenter { commitID := "xxx" } newComment1,
        by decide, by decide⟩
  refine ⟨out, hout, ?_⟩
  have hdec : Flush scenarioUtil (failingClient firstTwoFail) [1, 0, 2] 2 background
      postedCommenter = some (postedCommenter, out) → out.err
        = some (.wrapf "failed to create merge request discussion" (.api "403 Forbidden")) := by
    intro h
    have h2 : (Flush scenarioUtil (failingClient firstTwoFail) [1, 0, 2] 2 background
      postedCommenter).map (fun r => r.2.err) = some (some (.wrapf
        "failed to create merge request discussion" (.api "403 Forbidden"))) := by decide
    rw [h] at h2
    simpa using h2
  exact hdec hout

/-- C6 fails as stated: the first two of the three creation calls of the test
fail, with a 500 and a 403, and the goroutines finish in dispatch order. Flush
returns the first error only: neither the 403 nor its wrapped form is part of
the returned error. -/
theorem C6_counterexample :
    firstTwoFail 0 = some (.api "500 Internal Server Error") ∧
    firstTwoFail 1 = some (.api "403 Forbidden") ∧
    (Flush scenarioUtil (failingClient firstTwoFail) [0, 1, 2] 2 background
        postedCommenter).map (fun r => (r.2.err, (createdCalls r.2.log).length))
      = some (some (.wrapf "failed to create merge request discussion"
          (.api "500 Internal Server Error")), 3) ∧
    Error.Is (.wrapf "failed to create merge request discussion"
        (.api "500 Internal Server Error")) (.api "403 Forbidden") = false ∧
    Error.Is (.wrapf "failed to create merge request discussion"
        (.api "500 Internal Server Error"))
      (.wrapf "failed to create merge request discussion" (.api "403 Forbidden")) = false := by
  refine ⟨by decide, by decide, by decide, by decide, by decide⟩

/-- The shape of a Flush whose listing fails. -/
theorem Flush_listing_failed (u : Commentutil) (cli : Client) (sched : List Nat) (fuel : Nat)
    (ctx : Context) (g : MergeRequestDiscussionCommenter) (reqs : List Request) (e : Error)
    (hlist : listAllMergeRequestDiscussion cli g.projects g.pr fuel { page := 0, perPage := 100 }
      = some (reqs, .error e)) :
    Flush u cli sched fuel ctx g = some (g,
      { err := some (.wrapf "failed to create posted comments"
          (.wrapf "failed to list all merge request discussions" e))
        log := reqs }) := by
  unfold Flush createPostedComments
  rw [hlist]

/-- The listing issues listing requests only. -/
theorem listAll_requests (cli : Client) (projectID : String) (mergeRequest : Int) :
    ∀ (fuel : Nat) (opts : ListMergeRequestDiscussionsOptions) (reqs : List Request)
      (r : Except Error (List Discussion)),
      listAllMergeRequestDiscussion cli projectID mergeRequest fuel opts = some (reqs, r) →
      ∀ q ∈ reqs, ∃ o, q = Request.listMergeRequestDiscussions projectID mergeRequest o := by
  intro fuel
  induction fuel with
  | zero => intro opts reqs r h; simp [listAllMergeRequestDiscussion] at h
  | succ n ih =>
    intro opts reqs r h
    unfold listAllMergeRequestDiscussion at h
    cases hans : cli.listMergeRequestDiscussions projectID mergeRequest opts with
    | error err =>
      rw [hans] at h
      simp only [Option.some.injEq, Prod.mk.injEq] at h
      rw [← h.1]
      intro q hq
      exact ⟨opts, List.mem_singleton.mp hq⟩
    | ok pr =>
      obtain ⟨discussions, resp⟩ := pr
      rw [hans] at h
      simp only at h
      by_cases hz : resp.nextPage = 0
      · simp only [hz, if_true, Option.some.injEq, Prod.mk.injEq] at h
        rw [← h.1]
        intro q hq
        exact ⟨opts, List.mem_singleton.mp hq⟩
      · simp only [hz, if_false] at h
        cases hrec : listAllMergeRequestDiscussion cli projectID mergeRequest n
            { page := resp.nextPage, perPage := opts.perPage } with
        | none => rw [hrec] at h; simp at h
        | some pr2 =>
          obtain ⟨reqs2, r2⟩ := pr2
          rw [hrec] at h
          have h2 := ih _ _ _ hrec
          have hreqs : reqs = Request.listMergeRequestDiscussions projectID mergeRequest opts
              :: reqs2 := by
            cases r2 with
            | error e =>
              simp only [Option.some.injEq, Prod.mk.injEq] at h
              exact h.1.symm
            | ok rest =>
              simp only [Option.some.injEq, Prod.mk.injEq] at h
              exact h.1.symm
          rw [hreqs]
          intro q hq
          rcases List.mem_cons.mp hq with rfl | hq
          · exact ⟨opts, rfl⟩
          · exact h2 q hq

/-- C7: if a page request of the listing fails, the first one or a later one
reached through non-zero next-page numbers, then Flush, given more fuel than
pages were answered, ends with a non-nil error that wraps the error of the
failed request; it issues listing requests only: no lookup and no creation
call, whatever the buffer holds. -/
theorem C7_listing_failure_is_fatal (u : Commentutil) (cli : Client) (sched : List Nat)
    (fuel : Nat) (ctx : Context) (g : MergeRequestDiscussionCommenter)
    (pages : List (List Discussion × Int)) (e : Error)
    (hchain : FailingChain cli g.projects g.pr 100 0 pages e) (hfuel : pages.length < fuel) :
    ∃ out, Flush u cli sched fuel ctx g = some (g, out) ∧
      out.err = some (.wrapf "failed to create posted comments"
        (.wrapf "failed to list all merge request discussions" e)) ∧
      createdCalls out.log = [] ∧
      ∀ q ∈ out.log, ∃ o, q = Request.listMergeRequestDiscussions g.projects g.pr o := by
  obtain ⟨reqs, hreqs⟩ := listAll_of_failingChain cli g.projects g.pr 100 e pages 0 fuel
    hchain hfuel
  refine ⟨_, Flush_listing_failed u cli sched fuel ctx g reqs e hreqs, rfl, ?_, ?_⟩
  · exact listAll_createdCalls _ _ _ _ _ _ _ hreqs
  · exact listAll_requests _ _ _ _ _ _ _ hreqs

/-- The scenario of C7: the second page of the test server fails; Flush returns
the wrapped error and creates nothing, though three buffered comments are new. -/
theorem C7_listing_failure_is_fatal_witness :
    FailingChain brokenSecondPage "o/r" 14 100 0 [(testPage1, 2)] (.api "502 Bad Gateway") ∧
    ∃ out, Flush scenarioUtil brokenSecondPage [0, 1, 2] 2 background postedCommenter
        = some (postedCommenter, out) ∧
      out.err = some (.wrapf "failed to create posted comments"
        (.wrapf "failed to list all merge request discussions" (.api "502 Bad Gateway"))) ∧
      createdCalls out.log = [] := by
  have hchain : FailingChain brokenSecondPage "o/r" 14 100 0 [(testPage1, 2)]
      (.api "502 Bad Gateway") := ⟨rfl, by decide, rfl⟩
  obtain ⟨out, hout, herr, hnone, -⟩ :=
    C7_listing_failure_is_fatal scenarioUtil brokenSecondPage [0, 1, 2] 2 background
      postedCommenter [(testPage1, 2)] (.api "502 Bad Gateway") hchain (by decide)
  exact ⟨hchain, out, hout, herr, hnone⟩

/-- C8, as amended: when the listing succeeds and no two eligible buffered
comments share a (path, line), no two creation calls of the Flush target the
same (path, line). Nothing collapses duplicates inside the buffer: when the
lookups succeed too, the targets of the creation calls are the (path, line) of
the eligible buffered comments, one call per comment, in buffer order. -/
theorem C8_distinct_targets (u : Commentutil) (cli : Client) (sched : List Nat) (fuel : Nat)
    (ctx : Context) (g : MergeRequestDiscussionCommenter) (reqs : List Request)
    (discussions : List Discussion)
    (hlist : listAllMergeRequestDiscussion cli g.projects g.pr fuel { page := 0, perPage := 100 }
      = some (reqs, .ok discussions))
    (hdistinct : ((g.postComments.filter (eligible u (postedOf discussions))).map
      fun c => (c.path, c.startLine)).Nodup) :
    ∃ out, Flush u cli sched fuel ctx g = some (g, out) ∧
      ((createdCalls out.log).map target).Nodup ∧
      ∀ mr br, withContext (ctx reqs.length) (cli.getMergeRequest g.projects g.pr) = .ok mr →
        cli.getBranch mr.targetProjectID mr.targetBranch = .ok br →
        (createdCalls out.log).map target
          = (g.postComments.filter (eligible u (postedOf discussions))).map
              fun c => (c.path, c.startLine) := by
  have hmap : ∀ br, ((g.postComments.filter (eligible u (postedOf discussions))).map
      (discussionFor u g br)).map target
      = (g.postComments.filter (eligible u (postedOf discussions))).map
          fun c => (c.path, c.startLine) := by
    intro br
    rw [List.map_map]
    apply List.map_congr_left
    intro c _
    exact discussionFor_target u g br c
  obtain ⟨out, hout, hcalls⟩ := Flush_listed u cli sched fuel ctx g reqs discussions hlist
  refine ⟨out, hout, ?_, ?_⟩
  · rcases hcalls with hnil | ⟨br, hbr⟩
    · rw [hnil]; exact List.nodup_nil
    · rw [hbr, hmap]; exact hdistinct
  · intro mr br hmr hbr
    have hd := Flush_dispatch u cli sched fuel ctx g reqs discussions mr br hlist hmr hbr
    rw [hd] at hout
    simp only [Option.some.injEq, Prod.mk.injEq, true_and] at hout
    rw [← hout, Flush_dispatch_created g cli fuel reqs _ mr _ hlist, dispatched_eq, hmap]

/-- The test scenario of C8 as amended: the eligible comments of the test have
distinct targets, and so have the creation calls. -/
theorem C8_distinct_targets_witness :
    ((postedCommenter.postComments.filter
        (eligible scenarioUtil (postedOf (testPage1 ++ testPage2)))).map
      fun c => (c.path, c.startLine)).Nodup ∧
    ∃ out, Flush scenarioUtil testClient [0, 1, 2] 2 background postedCommenter
        = some (postedCommenter, out) ∧
      ((createdCalls out.log).map target).Nodup := by
  have hd : ((postedCommenter.postComments.filter
        (eligible scenarioUtil (postedOf (testPage1 ++ testPage2)))).map
      fun c => (c.path, c.startLine)).Nodup := by decide
  obtain ⟨out, hout, hnodup, -⟩ :=
    C8_distinct_targets scenarioUtil testClient [0, 1, 2] 2 background postedCommenter
      [Request.listMergeRequestDiscussions "o/r" 14 { page := 0, perPage := 100 },
        Request.listMergeRequestDiscussions "o/r" 14 { page := 2, perPage := 100 }]
      (testPage1 ++ testPage2) (by rfl) hd
  exact ⟨hd, out, hout, hnodup⟩

/-- C8 fails as stated: `newComment1` is posted twice, the buffer holds it
twice, and a Flush against an empty listing issues two creation calls that
target the same (path, line). -/
theorem C8_counterexample :
    twicePostedCommenter.postComments = [newComment1, newComment1] ∧
    (Flush scenarioUtil (singlePageClient []) [0, 1] 1 background twicePostedCommenter).map
        (fun r => (createdCalls r.2.log).map target)
      = some [("file.go", 14), ("file.go", 14)] := by
  constructor <;> decide

/-- A comment without a location makes `Post` panic, and nothing is changed. -/
theorem Post_without_location (s : Store) (c : CommentPtr)
    (h : (s.memory c).location = none) : Post s c = (s, none) := by
  unfold Post
  rw [h]

/-- The result of `Post` for a comment that has a location. -/
theorem Post_with_location (s : Store) (c : CommentPtr) (l : LocationPtr)
    (h : (s.memory c).location = some l) :
    Post s c
      = ({ s with
            locations := fun q =>
              if q = l then
                { s.locations l with
                  path := filepathToSlash (filepathJoin [s.wd, (s.locations l).path]) }
              else s.locations q
            postComments := s.postComments ++ [c] },
          some { err := none, log := [] }) := by
  unfold Post
  rw [h]

/-- C9, as amended: for a comment that has a location, Post returns nil and
issues no request; it writes the path, joined to the working directory and in
slash form, into the location object of that comment, and writes no other
location object and no comment object; it leaves the other fields of the
commenter as they were and the buffer, a list of pointers, equal to the previous
buffer followed by the posted pointer. So when no buffered comment has the
location object of the posted comment, the buffered comments read as before,
followed by the posted comment with the rewritten path. Flush, whenever it ends,
with an error or without, leaves the commenter, its buffer and every object as
they were. -/
theorem C9_buffer_is_append_only (s : Store) (c : CommentPtr) (l : LocationPtr)
    (u : Commentutil) (cli : Client) (sched : List Nat) (fuel : Nat) (ctx : Context)
    (hloc : (s.memory c).location = some l) :
    (Post s c).2 = some { err := none, log := [] } ∧
    (Post s c).1.postComments = s.postComments ++ [c] ∧
    (Post s c).1.memory = s.memory ∧
    (Post s c).1.locations l
      = { s.locations l with
          path := filepathToSlash (filepathJoin [s.wd, (s.locations l).path]) } ∧
    (∀ q, q ≠ l → (Post s c).1.locations q = s.locations q) ∧
    ((Post s c).1.pr = s.pr ∧ (Post s c).1.sha = s.sha ∧
      (Post s c).1.projects = s.projects ∧ (Post s c).1.wd = s.wd) ∧
    ((∀ b ∈ s.postComments, (s.memory b).location ≠ some l) →
      (Post s c).1.read.postComments
        = s.read.postComments ++
          [{ s.comment c with
              path := filepathToSlash (filepathJoin [s.wd, (s.comment c).path]) }]) ∧
    ∀ r, s.Flush u cli sched fuel ctx = some r → r.1 = s := by
  rw [Post_with_location s c l hloc]
  refine ⟨rfl, rfl, rfl, ?_, ?_, ⟨rfl, rfl, rfl, rfl⟩, ?_, ?_⟩
  · simp only [if_true]
  · intro q hq
    simp only [if_neg hq]
  · intro hfresh
    unfold Store.read
    simp only [List.map_append, List.map_cons, List.map_nil]
    congr 1
    · apply List.map_congr_left
      intro b hb
      have hne := hfresh b hb
      unfold Store.comment CommentObject.read
      cases hbl : (s.memory b).location with
      | none => rfl
      | some lb =>
        have hlb : lb ≠ l := fun h => hne (by rw [hbl, h])
        simp only [if_neg hlb]
    · unfold Store.comment CommentObject.read
      simp only [hloc, if_true]
  · intro r h
    unfold Store.Flush at h
    cases hf : MergeRequestDiscussionCommenter.Flush u cli sched fuel ctx s.read with
    | none => rw [hf] at h; cases h
    | some p =>
      rw [hf] at h
      simp only [Option.some.injEq] at h
      rw [← h]

/-- The test scenario of C9 as amended: run from the root of the repository,
posting `newComment1` puts its pointer in the buffer, which then reads as that
comment; the seven posts of the test fill the buffer with the seven comments. -/
theorem C9_buffer_is_append_only_witness :
    (testStore.memory 2).location = some 2 ∧
    (Post testStore 2).2 = some { err := none, log := [] } ∧
    (Post testStore 2).1.postComments = [2] ∧
    (Post testStore 2).1.read.postComments = [newComment1] ∧
    postedCommenter.postComments = testComments := by
  have h := C9_buffer_is_append_only testStore 2 2 scenarioUtil testClient [0, 1, 2] 2
    background rfl
  refine ⟨rfl, h.1, h.2.1, ?_, by decide⟩
  rw [h.2.2.2.2.2.2.1 (by decide)]
  decide

/-- C9 fails as stated: reviewdog runs in the directory `sub` and the comment
object of `newComment1` is posted twice. After the first Post the buffer reads
as one comment on `sub/file.go`. The second Post rewrites the path of the same
object again: the buffer then reads as two comments on `sub/sub/file.go`, so it
does not begin with the previous buffer. -/
theorem C9_counterexample :
    (Post subdirStore 2).1.read.postComments = [{ newComment1 with path := "sub/file.go" }] ∧
    (Post (Post subdirStore 2).1 2).2 = some { err := none, log := [] } ∧
    (Post (Post subdirStore 2).1 2).1.postComments = [2, 2] ∧
    (Post (Post subdirStore 2).1 2).1.read.postComments
      = [{ newComment1 with path := "sub/sub/file.go" },
         { newComment1 with path := "sub/sub/file.go" }] ∧
    (Post (Post subdirStore 2).1 2).1.read.postComments.take 1
      ≠ (Post subdirStore 2).1.read.postComments := by
  refine ⟨by decide, by decide, by decide, by decide, by decide⟩

/-- C10: the code at the failing input. The context of Flush is cancelled
after the merge-request lookup, before any creation call is dispatched: the
three creation calls of the test scenario are issued all the same and Flush
returns nil, not a cancellation error. Only the merge-request lookup is bound to
the context: with a context cancelled from the start the listing still runs,
the lookup fails with the context's error and nothing is created. -/
theorem C10_creation_calls_ignore_cancellation :
    cancelledAfterLookup 3 = some Canceled ∧
    (Flush scenarioUtil testClient [0, 1, 2] 2 cancelledAfterLookup postedCommenter).map
        (fun r => (r.2.err, (createdCalls r.2.log).length, r.2.log.length))
      = some (none, 3, 7) ∧
    (Flush scenarioUtil testClient [0, 1, 2] 2 cancelledBefore postedCommenter).map
        (fun r => (r.2.err, (createdCalls r.2.log).length, r.2.log.length))
      = some (some (.wrapf "failed to get merge request" Canceled), 0, 3) := by
  refine ⟨by decide, by decide, by decide⟩

/-- C11: for every option, `toolName` is the value of -name when it is not
empty, and the value of -f otherwise (the empty string when both are empty). -/
theorem C11_toolName_prefers_name (opt : option) :
    toolName opt = if opt.name ≠ "" then opt.name else opt.f := by
  unfold toolName
  by_cases hn : opt.name = ""
  · by_cases hf : opt.f = ""
    · simp [hn, hf]
    · simp [hn, hf]
  · simp [hn]

/-! ### The index of `createPostedComments` -/

theorem foldl_addNote_eq (notes : List Note) :
    ∀ acc : PostedComments,
      notes.foldl addNote acc = acc ++ notes.filterMap fun note =>
        match note.position with
        | none => none
        | some pos =>
          if pos.newPath ≠ "" ∧ pos.newLine ≠ 0 ∧ note.body ≠ "" then
            some (pos.newPath, pos.newLine, note.body)
          else none := by
  induction notes with
  | nil => intro acc; simp
  | cons n ns ih =>
    intro acc
    rw [List.foldl_cons, ih]
    unfold addNote
    cases hp : n.position with
    | none => simp [List.filterMap_cons, hp]
    | some pos =>
      by_cases hg : pos.newPath = "" ∨ pos.newLine = 0 ∨ n.body = ""
      · have hng : ¬(pos.newPath ≠ "" ∧ pos.newLine ≠ 0 ∧ n.body ≠ "") := by
          intro h
          rcases hg with hg | hg | hg
          · exact h.1 hg
          · exact h.2.1 hg
          · exact h.2.2 hg
        simp only [List.filterMap_cons, hp, if_pos hg, if_neg hng]
      · have hng : pos.newPath ≠ "" ∧ pos.newLine ≠ 0 ∧ n.body ≠ "" := by
          simp only [not_or] at hg
          exact hg
        simp only [List.filterMap_cons, hp, if_neg hg, if_pos hng,
          PostedComments.AddPostedComment, List.append_assoc, List.singleton_append]

theorem foldl_discussions_eq (discussions : List Discussion) :
    ∀ acc : PostedComments,
      discussions.foldl (fun postedcs d => d.notes.foldl addNote postedcs) acc
        = acc ++ ((discussions.map fun d => d.notes).flatten).filterMap fun note =>
          match note.position with
          | none => none
          | some pos =>
            if pos.newPath ≠ "" ∧ pos.newLine ≠ 0 ∧ note.body ≠ "" then
              some (pos.newPath, pos.newLine, note.body)
            else none := by
  induction discussions with
  | nil => intro acc; simp
  | cons d ds ih =>
    intro acc
    rw [List.foldl_cons, ih, foldl_addNote_eq]
    simp only [List.map_cons, List.flatten_cons, List.filterMap_append, List.append_assoc]

/-- C13: the index `createPostedComments` builds from a listing holds the
(NewPath, NewLine, Body) of exactly the notes that have a position, a non-empty
NewPath, a non-zero NewLine and a non-empty body, one entry per such note in
listing order, and nothing else. So a buffered comment counts as posted for a
line and a body iff some note that has all four has that very path, line and
body: a note that lacks one of them, or whose body differs, never makes it
count. -/
theorem C13_index_holds_the_complete_notes (g : MergeRequestDiscussionCommenter) (cli : Client)
    (fuel : Nat) (reqs : List Request) (discussions : List Discussion)
    (hlist : listAllMergeRequestDiscussion cli g.projects g.pr fuel { page := 0, perPage := 100 }
      = some (reqs, .ok discussions)) :
    createPostedComments g cli fuel = some (reqs, .ok (postedOf discussions)) ∧
    postedOf discussions
      = ((discussions.map fun d => d.notes).flatten).filterMap (fun note =>
          match note.position with
          | none => none
          | some pos =>
            if pos.newPath ≠ "" ∧ pos.newLine ≠ 0 ∧ note.body ≠ "" then
              some (pos.newPath, pos.newLine, note.body)
            else none) ∧
    ∀ (c : Comment) (lineNum : Int) (body : String),
      (postedOf discussions).IsPosted c lineNum body = true ↔
        ∃ d ∈ discussions, ∃ note ∈ d.notes, ∃ pos, note.position = some pos ∧
          pos.newPath ≠ "" ∧ pos.newLine ≠ 0 ∧ note.body ≠ "" ∧
          pos.newPath = c.path ∧ pos.newLine = lineNum ∧ note.body = body := by
  refine ⟨?_, ?_, ?_⟩
  · unfold createPostedComments
    rw [hlist]
  · unfold postedOf
    rw [foldl_discussions_eq]
    rfl
  · intro c lineNum body
    rw [isPosted_iff, mem_postedOf_iff]
    constructor
    · rintro ⟨d, hd, note, hnote, pos, hpos, h1, h2, h3, heq⟩
      rw [Prod.mk.injEq, Prod.mk.injEq] at heq
      exact ⟨d, hd, note, hnote, pos, hpos, h1, h2, h3, heq.1.symm, heq.2.1.symm, heq.2.2.symm⟩
    · rintro ⟨d, hd, note, hnote, pos, hpos, h1, h2, h3, hp, hl, hb⟩
      exact ⟨d, hd, note, hnote, pos, hpos, h1, h2, h3, by rw [hp, hl, hb]⟩

/-- A listing for C13 with four defective notes around `file.go` line 14: only
the complete note is in the index, and `newComment1`, whose body differs from
it, does not count as posted. -/
theorem C13_index_holds_the_complete_notes_witness :
    createPostedComments testCommenter (singlePageClient defectiveListing) 1
      = some ([Request.listMergeRequestDiscussions "o/r" 14 { page := 0, perPage := 100 }],
          .ok [("file.go", 14, "unrelated commented")]) ∧
    (postedOf defectiveListing).IsPosted newComment1 14 "new comment" = false := by
  have h := C13_index_holds_the_complete_notes testCommenter (singlePageClient defectiveListing) 1
    [Request.listMergeRequestDiscussions "o/r" 14 { page := 0, perPage := 100 }]
    defectiveListing (by rfl)
  refine ⟨?_, by decide⟩
  rw [h.1, h.2.1]
  rfl

/-! ### The command line -/

theorem runReport_err (world : World) (opt : option) (isProject : Bool) (cs : CommentService)
    (ds : DiffService) (steps : List Step) (v : String) :
    (runReport world opt isProject cs ds steps).err ≠ some (.unknownReporter v) := by
  unfold runReport projectConfig newParserFromOpt
  cases isProject with
  | true =>
    simp only [if_true]
    cases hr : readConf world opt.conf with
    | mk steps1 res =>
      cases res with
      | error e => simp
      | ok b =>
        simp only []
        cases hp : world.projectParse b with
        | some e => simp
        | none =>
          simp only []
          cases world.projectRun b cs ds <;> simp
  | false =>
    simp only [Bool.false_eq_true, if_false]
    cases hp : world.newParser opt.f opt.efms with
    | some e => simp
    | none =>
      simp only []
      cases world.appRun (toolName opt) opt.f opt.efms cs ds <;> simp

theorem nonEmptyEnv_err (world : World) (env : String) (e : RunError)
    (h : nonEmptyEnv world env = .error e) : e = .envNotSet env := by
  unfold nonEmptyEnv at h
  by_cases hv : world.getenv env = ""
  · simp only [hv, if_true, Except.error.injEq] at h
    exact h.symm
  · simp only [hv, if_false] at h
    cases h

theorem githubClient_err (world : World) (token : String) (e : RunError)
    (h : githubClient world token = .error e) : ∃ u c, e = .githubBaseURLInvalid u c := by
  unfold githubClient githubBaseURL at h
  cases hu : world.urlParse
      (if world.getenv "GITHUB_API" = "" then defaultGitHubAPI else world.getenv "GITHUB_API") with
  | some c =>
    simp only [hu, Except.error.injEq] at h
    exact ⟨_, c, h.symm⟩
  | none =>
    simp only [hu] at h
    cases h

theorem githubService_err (world : World) (steps : List Step) (e : RunError) (v : String)
    (h : githubService world = (steps, .error e)) : e ≠ .unknownReporter v := by
  unfold githubService at h
  cases hn : nonEmptyEnv world "REVIEWDOG_GITHUB_API_TOKEN" with
  | error err =>
    rw [hn] at h
    simp only [Prod.mk.injEq, Except.error.injEq] at h
    rw [← h.2, nonEmptyEnv_err world _ err hn]
    intro hc; cases hc
  | ok token =>
    rw [hn] at h
    simp only [] at h
    rcases hinfo : world.getPullRequestInfo with ⟨g, isPR, perr⟩
    rw [hinfo] at h
    cases perr with
    | some err =>
      simp only [Prod.mk.injEq, Except.error.injEq] at h
      rw [← h.2]
      intro hc; cases hc
    | none =>
      simp only [] at h
      cases isPR with
      | false => simp at h
      | true =>
        simp only [Bool.not_true, Bool.false_eq_true, if_false] at h
        cases hc : githubClient world token with
        | error err =>
          rw [hc] at h
          simp only [Prod.mk.injEq, Except.error.injEq] at h
          obtain ⟨u, c, hu⟩ := githubClient_err world token err hc
          rw [← h.2, hu]
          intro hc2; cases hc2
        | ok client =>
          rw [hc] at h
          simp only [] at h
          cases hs : world.newGitHubPullReqest client g.owner g.repo g.pullRequest g.sha with
          | some err =>
            rw [hs] at h
            simp only [Prod.mk.injEq, Except.error.injEq] at h
            rw [← h.2]
            intro hc2; cases hc2
          | none =>
            rw [hs] at h
            simp at h

theorem gitlabService_err (world : World) (ci : String) (steps : List Step) (e : RunError)
    (v : String) (h : gitlabService world ci = (steps, .error e)) : e ≠ .unknownReporter v := by
  unfold gitlabService at h
  cases hn : nonEmptyEnv world "REVIEWDOG_GITLAB_API_TOKEN" with
  | error err =>
    rw [hn] at h
    simp only [Prod.mk.injEq, Except.error.injEq] at h
    rw [← h.2, nonEmptyEnv_err world _ err hn]
    intro hc; cases hc
  | ok token =>
    rw [hn] at h
    simp only [] at h
    rcases hinfo : world.getPullRequestInfo with ⟨g, isPR, perr⟩
    rw [hinfo] at h
    cases perr with
    | some err =>
      simp only [Prod.mk.injEq, Except.error.injEq] at h
      rw [← h.2]
      intro hc; cases hc
    | none =>
      simp only [] at h
      cases isPR with
      | false => simp at h
      | true =>
        simp only [Bool.not_true, Bool.false_eq_true, if_false, gitlabClient] at h
        cases hs : world.newGitLabMergeRequest
            { token := token, baseURL := gitlabBaseURL world,
              insecureSkipVerify := insecureSkipVerify world }
            (g.owner ++ "/" ++ g.repo) g.pullRequest g.sha with
        | some err =>
          rw [hs] at h
          simp only [Prod.mk.injEq, Except.error.injEq] at h
          rw [← h.2]
          intro hc2; cases hc2
        | none =>
          rw [hs] at h
          simp at h

theorem diffService_err (world : World) (s : String) (strip : Int) (steps : List Step)
    (e : RunError) (v : String) (h : diffService world s strip = (steps, .error e)) :
    e ≠ .unknownReporter v := by
  unfold diffService at h
  cases hp : world.shellwordsParse s with
  | error err =>
    rw [hp] at h
    simp only [Prod.mk.injEq, Except.error.injEq] at h
    rw [← h.2]
    intro hc; cases hc
  | ok cmds =>
    rw [hp] at h
    simp only [] at h
    by_cases hl : cmds.length < 1
    · simp only [hl, if_true, Prod.mk.injEq, Except.error.injEq] at h
      rw [← h.2]
      intro hc; cases hc
    · simp [hl] at h

/-- With one of the four known reporters, no error `run` returns is the error
of the default branch of the switch. -/
theorem run_known_reporter (world : World) (opt : option) (hversion : opt.version = false)
    (hlist : opt.list = false) (hci : opt.ci = "")
    (hknown : opt.reporter ∈ ["local", "github-pr-check", "github-pr-review",
      "gitlab-mr-review"]) (v : String) :
    (run world opt).err ≠ some (.unknownReporter v) := by
  unfold run
  simp only [hversion, hlist, hci, Bool.false_eq_true, if_false, ne_eq, not_true_eq_false]
  by_cases h1 : opt.reporter = "github-pr-check"
  · simp only [h1, if_true]
    cases world.runDoghouse opt (opt.efms.length == 0 && opt.f == "") <;> simp
  · simp only [h1, if_false]
    by_cases h2 : opt.reporter = "github-pr-review"
    · simp only [h2, if_true]
      by_cases ht : world.getenv "REVIEWDOG_GITHUB_API_TOKEN" = ""
      · simp [ht]
      · simp only [ht, if_false]
        rcases hs : githubService world with ⟨steps1, res⟩
        cases res with
        | error e =>
          simp only [Option.some.injEq]
          exact githubService_err world steps1 e v hs
        | ok gs =>
          cases gs with
          | none => simp
          | some gs => exact runReport_err _ _ _ _ _ _ v
    · simp only [h2, if_false]
      by_cases h3 : opt.reporter = "gitlab-mr-review"
      · simp only [h3, if_true]
        by_cases ht : world.getenv "REVIEWDOG_GITLAB_API_TOKEN" = ""
        · simp [ht]
        · simp only [ht, if_false]
          rcases hs : gitlabService world "" with ⟨steps1, res⟩
          cases res with
          | error e =>
            simp only [Option.some.injEq]
            exact gitlabService_err world "" steps1 e v hs
          | ok gs =>
            cases gs with
            | none => simp
            | some gs => exact runReport_err _ _ _ _ _ _ v
      · simp only [h3, if_false]
        by_cases h4 : opt.reporter = "local"
        · simp only [h4, if_true]
          rcases hs : diffService world opt.diffCmd opt.diffStrip with ⟨steps1, res⟩
          cases res with
          | error e =>
            simp only [Option.some.injEq]
            exact diffService_err world _ _ steps1 e v hs
          | ok d => exact runReport_err _ _ _ _ _ _ v
        · exfalso
          simp only [List.mem_cons, List.mem_singleton, List.not_mem_nil, or_false] at hknown
          rcases hknown with h | h | h | h
          · exact h4 h
          · exact h1 h
          · exact h2 h
          · exact h3 h

/-- C12: with -version and -list unset and -ci empty, `run` returns the error
"unknown -reporter: " followed by the -reporter value iff that value is none of
local, github-pr-check, github-pr-review, gitlab-mr-review. In that case `run`
has only opened its input file and made the writer to its output: no diff
service, no parser and no GitHub or GitLab service is made, and nothing is run. -/
theorem C12_unknown_reporter (world : World) (opt : option) (hversion : opt.version = false)
    (hlist : opt.list = false) (hci : opt.ci = "") :
    ((run world opt).err = some (.unknownReporter opt.reporter) ↔
      opt.reporter ∉ ["local", "github-pr-check", "github-pr-review", "gitlab-mr-review"]) ∧
    (∀ v, (run world opt).err = some (.unknownReporter v) → v = opt.reporter) ∧
    RunError.message (.unknownReporter opt.reporter) = "unknown -reporter: " ++ opt.reporter ∧
    (opt.reporter ∉ ["local", "github-pr-check", "github-pr-review", "gitlab-mr-review"] →
      (run world opt).steps
        = [Step.openFile "../phpcs-result.xml",
           Step.newCommentWriter
            (if opt.efms.length = 0 ∧ opt.f = "" then CommentService.unifiedCommentWriter
             else CommentService.rawCommentWriter)]) := by
  have hunknown : opt.reporter ∉ ["local", "github-pr-check", "github-pr-review",
      "gitlab-mr-review"] →
      run world opt = { err := some (.unknownReporter opt.reporter)
                        steps := [Step.openFile "../phpcs-result.xml",
                          Step.newCommentWriter
                            (if opt.efms.length = 0 ∧ opt.f = "" then
                              CommentService.unifiedCommentWriter
                             else CommentService.rawCommentWriter)] } := by
    intro hnot
    simp only [List.mem_cons, List.mem_singleton, List.not_mem_nil, or_false, not_or] at hnot
    obtain ⟨h4, h1, h2, h3⟩ := hnot
    unfold run
    simp only [hversion, hlist, hci, Bool.false_eq_true, if_false, ne_eq, not_true_eq_false,
      h1, h2, h3, h4]
    by_cases hp : opt.efms.length = 0 ∧ opt.f = ""
    · have hb : (opt.efms.length == 0 && opt.f == "") = true := by
        rw [Bool.and_eq_true, beq_iff_eq, beq_iff_eq]
        exact hp
      rw [if_pos hp, hb]
      rfl
    · have hb : (opt.efms.length == 0 && opt.f == "") = false := by
        rw [Bool.eq_false_iff, ne_eq, Bool.and_eq_true, beq_iff_eq, beq_iff_eq]
        exact hp
      rw [if_neg hp, hb]
      rfl
  refine ⟨⟨?_, ?_⟩, ?_, rfl, ?_⟩
  · intro herr hknown
    exact run_known_reporter world opt hversion hlist hci hknown _ herr
  · intro hnot
    rw [hunknown hnot]
  · intro v herr
    by_cases hknown : opt.reporter ∈ ["local", "github-pr-check", "github-pr-review",
      "gitlab-mr-review"]
    · exact absurd herr (run_known_reporter world opt hversion hlist hci hknown v)
    · rw [hunknown hknown] at herr
      simp only [Option.some.injEq, RunError.unknownReporter.injEq] at herr
      exact herr.symm
  · intro hnot
    rw [hunknown hnot]

/-- An instance of C12: the reporter `bitbucket-code-report` is not known to
this `run`. -/
theorem C12_unknown_reporter_witness :
    run quietWorld { defaultOption with reporter := "bitbucket-code-report" }
      = { err := some (.unknownReporter "bitbucket-code-report")
          steps := [Step.openFile "../phpcs-result.xml",
            Step.newCommentWriter CommentService.unifiedCommentWriter] } ∧
    ((run quietWorld { defaultOption with reporter := "bitbucket-code-report" }).err
        = some (.unknownReporter "bitbucket-code-report") ↔
      "bitbucket-code-report" ∉ ["local", "github-pr-check", "github-pr-review",
        "gitlab-mr-review"]) :=
  ⟨by decide,
    (C12_unknown_reporter quietWorld { defaultOption with reporter := "bitbucket-code-report" }
      rfl rfl rfl).1⟩

/-- C14: with -version and -list unset and -ci not empty, `run` returns the error
that says the -ci flag is deprecated, whatever the other flags are, having only
opened its input file: before the writer is made and before the switch on the
reporter. -/
theorem C14_ci_flag_is_deprecated (world : World) (opt : option)
    (hversion : opt.version = false) (hlist : opt.list = false) (hci : opt.ci ≠ "") :
    run world opt
      = { err := some .ciDeprecated, steps := [Step.openFile "../phpcs-result.xml"] } ∧
    (run world opt).err.map RunError.message
      = some ("-ci flag is deprecated.\nSee -reporter flag for migration and set " ++
          "-reporter=\"github-pr-review\" or -reporter=\"github-pr-check\"") := by
  have h : run world opt
      = { err := some .ciDeprecated, steps := [Step.openFile "../phpcs-result.xml"] } := by
    unfold run
    simp only [hversion, hlist, Bool.false_eq_true, if_false, ne_eq, hci, not_false_eq_true,
      if_true]
  refine ⟨h, ?_⟩
  rw [h]
  rfl

/-- An instance of C14: `-ci travis` with an unknown reporter. -/
theorem C14_ci_flag_is_deprecated_witness :
    run quietWorld { defaultOption with ci := "travis", reporter := "nowhere" }
      = { err := some .ciDeprecated, steps := [Step.openFile "../phpcs-result.xml"] } :=
  (C14_ci_flag_is_deprecated quietWorld
    { defaultOption with ci := "travis", reporter := "nowhere" } rfl rfl (by decide)).1

/-- The results for which `checkAPIError` returns nil: the error is nil or is
not a `bbapi.GenericOpenAPIError`, and the response is nil or has the expected
status code. -/
theorem checkAPIError_eq_none_iff (err : Option GoError) (resp : Option HTTPResponse)
    (expectedCode : Int) :
    CloudAPIClient.checkAPIError err resp expectedCode = none ↔
      (∀ error body, err ≠ some (.generic error body)) ∧
        ∀ r, resp = some r → r.statusCode = expectedCode := by
  have hrest : (match resp with
      | none => (none : Option GoError)
      | some resp =>
        if resp.statusCode ≠ expectedCode then
          match resp.body with
          | .error err => some err
          | .ok body =>
            some (.other (if body.length > 0 then
              "received unexpected " ++ toString resp.statusCode ++
                " code from Bitbucket API" ++ " with message:\n" ++ body
              else "received unexpected " ++ toString resp.statusCode ++
                " code from Bitbucket API"))
        else none) = none ↔ ∀ r, resp = some r → r.statusCode = expectedCode := by
    cases resp with
    | none => simp
    | some r =>
      by_cases hs : r.statusCode = expectedCode
      · simp [hs]
      · simp only [ne_eq, hs, not_false_eq_true, if_true, Option.some.injEq, forall_eq']
        cases r.body <;> simp
  unfold CloudAPIClient.checkAPIError
  cases err with
  | none => simpa using hrest
  | some e =>
    cases e with
    | generic error body => simp
    | other msg => simpa using hrest

/-- C15: the code at the failing input. The request never reaches Bitbucket:
`Execute` returns no response and an error that is not a
`bbapi.GenericOpenAPIError`. `checkAPIError` returns nil, and so do
`CreateOrUpdateReport` and `CreateOrUpdateAnnotations`. The same error with a
response that has the expected status is dropped too, while a
`bbapi.GenericOpenAPIError` is reported. -/
theorem C15_checkAPIError_drops_other_errors :
    CloudAPIClient.checkAPIError
        (some (.other "dial tcp: lookup api.bitbucket.org: no such host")) none StatusOK
      = none ∧
    CloudAPIClient.CreateOrUpdateReport unreachableAPI scenarioReport = none ∧
    CloudAPIClient.CreateOrUpdateAnnotations unreachableAPI
        { owner := "reviewdog", repository := "reviewdog", commit := "sha", reportID := "golint",
          comments := [newComment1] } = none ∧
    CloudAPIClient.checkAPIError (some (.other "unexpected EOF"))
        (some { statusCode := 200, body := .ok "" }) StatusOK = none ∧
    CloudAPIClient.checkAPIError (some (.generic "401 Unauthorized" "")) none StatusOK
      = some (.other "bitbucket API error:\n\tResponse error: 401 Unauthorized\n\tResponse body: ")
    := by
  refine ⟨rfl, rfl, rfl, rfl, by decide⟩

end Reviewdog
